import Mathlib

/-!
# Verification of the PeakyLight topographic sunlight occlusion engine

This file is a shallow embedding, in Lean 4, of the computational core of the
PeakyLight daylight-loss visualizer (`src/peakylight.js` and `src/data.js`):

* the tiled elevation heightfield and its bilinear height query
  (`getTerrainHeightAt`),
* the boundary-stitching pass over the rendered tile meshes
  (`synchronizeTileBoundaries`),
* the sun geometry and ray-march occlusion test (`getSunPosition`,
  `isLocationSunlit`),
* the fixed-iteration bisection solver for topographic sunrise/sunset
  (`findTopoTime`),
* the yearly solver cache (`cacheYearlyTopoTimes`),
* the slippy-map tile coordinate transform and the terrarium raster decoding
  from `data.js` (`lonLatToTileCoords`, `tileCoordsToLonLat`, `getTileData`).

Modelling conventions.  JavaScript numbers are modelled by an arbitrary linear
ordered field `K` (instantiated at `ℚ` for executable witnesses, and at `ℝ`
where the source computes with trigonometric functions); exactness of float
arithmetic is idealized, as usual for a shallow embedding.  JavaScript arrays
indexed by numbers are modelled as functions returning `Option` values
(`none` models `undefined`).  The external collaborators (the SunCalc
ephemeris, tile fetching, the DOM) are modelled as oracle parameters.
Mutable global state (`terrainGrid` positions and vertex buffers,
`terrainHeightData`, `mapZoom`) is gathered into an explicit `EngineState`
record that operations take and return.
-/

namespace PeakyLight

/-- JavaScript `Math.round`: round half toward `+∞`, i.e. `⌊x + 1/2⌋`. -/
def jsRound {K : Type} [LinearOrderedField K] [FloorRing K] (x : K) : ℤ :=
  ⌊x + 1 / 2⌋

/-- `const TILE_BASE_ZOOM = 12` (src/peakylight.js). -/
def TILE_BASE_ZOOM : ℤ := 12

/-- `const TILE_BASE_SIZE = 20` (src/peakylight.js). -/
def TILE_BASE_SIZE : ℤ := 20

/-- `getTileWorldSizeForZoom(zoom)`:
`TILE_BASE_SIZE / Math.pow(2, zoom - TILE_BASE_ZOOM)`. -/
def getTileWorldSizeForZoom {K : Type} [LinearOrderedField K] (zoom : ℤ) : K :=
  (TILE_BASE_SIZE : K) / (2 : K) ^ (zoom - TILE_BASE_ZOOM)

/-- `getGridRadiusForZoom(zoom)`: the switch table
zoom 12 → 2, 13 → 3, 14 → 4, 15 → 5, default 2. -/
def getGridRadiusForZoom (zoom : ℤ) : ℤ :=
  if zoom = 12 then 2
  else if zoom = 13 then 3
  else if zoom = 14 then 4
  else if zoom = 15 then 5
  else 2

/-- One decoded elevation tile as stored in `terrainHeightData[tileName]`:
`{ heights, width, height }`.  `heights` models a JS `Float32Array` indexed by
a number: out-of-range access yields `undefined`, i.e. `none`.  `width` and
`height` are the raster dimensions (JS numbers, hence `ℤ` here since the code
computes `width - 1`). -/
structure TileData (K : Type) where
  heights : ℤ → Option K
  width : ℤ
  height : ℤ

/-- The mutable per-tile render geometry consulted and mutated by
`synchronizeTileBoundaries`: the z-components of
`tile.geometry.attributes.position` together with
`tile.geometry.userData = { edgeToSkirtMap, skirtDepth, topVerticesCount }`
(created by `createSkirtedPlaneGeometry`; for the 255×255-segment tiles the
top surface has `topVerticesCount = 256 * 256 = 65536` vertices and the
skirt map sends an edge vertex index to its skirt vertex offset). -/
structure MeshGeo (K : Type) where
  z : ℕ → K
  topVerticesCount : ℕ
  edgeToSkirtMap : ℕ → Option ℕ
  skirtDepth : K

/-- The engine state consulted by the height/occlusion queries and the
stitching pass:

* `meshes i j` — the rendered tile mesh named `tile_i_j` in `terrainGrid`
  (`none` when `getObjectByName` finds no tile);
* `heightData` — the `terrainHeightData` object, an association list from
  tile name (encoded by the `(i, j)` offsets) to decoded tile data;
* `gridPosX`/`gridPosZ` — `terrainGrid.position.x/z`;
* `mapZoom` — the current zoom level;
* `renderMisc` — stands for the remaining mutable rendering globals
  (lights, scene background, …) that the occlusion query must not depend on.

`stitchTileNormals` and `computeVertexNormals` touch only the normal
attributes, which no claim reads, so normals are not modelled. -/
structure EngineState (K : Type) where
  meshes : ℤ → ℤ → Option (MeshGeo K)
  heightData : List ((ℤ × ℤ) × TileData K)
  gridPosX : K
  gridPosZ : K
  mapZoom : ℤ
  renderMisc : K

/-- Result of a height query: the JS function returns either `-Infinity`
(`negInf`) or a finite height (`val h`).  A comparison `y < -Infinity` is
always false, which `heightLt` reproduces. -/
inductive HeightResult (K : Type) where
  | negInf : HeightResult K
  | val : K → HeightResult K
deriving DecidableEq

/-- `y < h` for a `HeightResult` `h`, matching JS comparison against
`-Infinity` (always false). -/
def heightLt {K : Type} [LinearOrderedField K] (y : K) : HeightResult K → Prop
  | HeightResult.negInf => False
  | HeightResult.val h => y < h

instance {K : Type} [LinearOrderedField K] (y : K) (h : HeightResult K) :
    Decidable (heightLt y h) := by
  cases h with
  | negInf => exact isFalse (fun c => c)
  | val v => exact inferInstanceAs (Decidable (y < v))

/-- The tile column offset `tile_j = Math.round(gridLocalX / tileWorldSize)`
computed by `getTerrainHeightAt`. -/
def tileIndexJ {K : Type} [LinearOrderedField K] [FloorRing K]
    (s : EngineState K) (worldX : K) : ℤ :=
  jsRound ((worldX - s.gridPosX) / getTileWorldSizeForZoom (K := K) s.mapZoom)

/-- The tile row offset `tile_i = Math.round(gridLocalZ / tileWorldSize)`
computed by `getTerrainHeightAt`. -/
def tileIndexI {K : Type} [LinearOrderedField K] [FloorRing K]
    (s : EngineState K) (worldZ : K) : ℤ :=
  jsRound ((worldZ - s.gridPosZ) / getTileWorldSizeForZoom (K := K) s.mapZoom)

/-- The fractional sample coordinate
`gridX = (tileLocalX + tileWorldSize/2) / tileWorldSize * (tileData.width - 1)`
computed by `getTerrainHeightAt` (and its `gridZ` analogue via `width ↦
height`, `worldX ↦ worldZ`). -/
def bilinCoord {K : Type} [LinearOrderedField K] [FloorRing K]
    (s : EngineState K) (gridLocal : K) (tileIdx : ℤ) (dim : ℤ) : K :=
  let tileWorldSize := getTileWorldSizeForZoom (K := K) s.mapZoom
  let tileLocal := gridLocal - (tileIdx : K) * tileWorldSize
  (tileLocal + tileWorldSize / 2) / tileWorldSize * ((dim : K) - 1)

/-- The out-of-footprint test performed by `getTerrainHeightAt`: the tile
offset of the query exceeds the grid radius on some axis
(`tile_i < -gridRadius || tile_i > gridRadius || tile_j < -gridRadius ||
tile_j > gridRadius`). -/
def outOfGrid {K : Type} [LinearOrderedField K] [FloorRing K]
    (s : EngineState K) (worldX worldZ : K) : Prop :=
  tileIndexI s worldZ < -getGridRadiusForZoom s.mapZoom ∨
    tileIndexI s worldZ > getGridRadiusForZoom s.mapZoom ∨
    tileIndexJ s worldX < -getGridRadiusForZoom s.mapZoom ∨
    tileIndexJ s worldX > getGridRadiusForZoom s.mapZoom

instance {K : Type} [LinearOrderedField K] [FloorRing K]
    (s : EngineState K) (worldX worldZ : K) :
    Decidable (outOfGrid s worldX worldZ) := by
  rw [outOfGrid]; infer_instance

/-- `getTerrainHeightAt(worldX, worldZ)` (src/peakylight.js): bilinear height
query against the loaded grid.  Returns `-Infinity` outside the grid
footprint, `0` when the owning slot has no data, `0` when the computed sample
indices are out of the tile's bounds or a fetched sample is `undefined`, and
otherwise the bilinear interpolation of the four surrounding samples. -/
def getTerrainHeightAt {K : Type} [LinearOrderedField K] [FloorRing K]
    (s : EngineState K) (worldX worldZ : K) : HeightResult K :=
  let gridLocalX := worldX - s.gridPosX
  let gridLocalZ := worldZ - s.gridPosZ
  let tile_j := tileIndexJ s worldX
  let tile_i := tileIndexI s worldZ
  if outOfGrid s worldX worldZ then
    HeightResult.negInf
  else
    match List.lookup (tile_i, tile_j) s.heightData with
    | none => HeightResult.val 0
    | some tileData =>
      let gridX := bilinCoord s gridLocalX tile_j tileData.width
      let gridZ := bilinCoord s gridLocalZ tile_i tileData.height
      let x1 := ⌊gridX⌋
      let z1 := ⌊gridZ⌋
      let x2 := ⌈gridX⌉
      let z2 := ⌈gridZ⌉
      if x1 < 0 ∨ x2 ≥ tileData.width ∨ z1 < 0 ∨ z2 ≥ tileData.height then
        HeightResult.val 0
      else
        match tileData.heights (z1 * tileData.width + x1),
            tileData.heights (z2 * tileData.width + x1),
            tileData.heights (z1 * tileData.width + x2),
            tileData.heights (z2 * tileData.width + x2) with
        | some h11, some h12, some h21, some h22 =>
          let tx := gridX - (x1 : K)
          let tz := gridZ - (z1 : K)
          let h_z1 := h11 * (1 - tz) + h12 * tz
          let h_z2 := h21 * (1 - tz) + h22 * tz
          HeightResult.val (h_z1 * (1 - tx) + h_z2 * tx)
        | _, _, _, _ => HeightResult.val 0

/-- Characterization of `jsRound` used to evaluate it on concrete inputs. -/
theorem jsRound_eq {K : Type} [LinearOrderedField K] [FloorRing K]
    {q : K} {n : ℤ} (h₁ : (n : K) ≤ q + 1 / 2) (h₂ : q + 1 / 2 < (n : K) + 1) :
    jsRound q = n := by
  rw [jsRound]
  exact Int.floor_eq_iff.mpr ⟨h₁, h₂⟩

/-- At the base zoom 12 one tile is 20 world units across. -/
theorem tileWorldSize_twelve {K : Type} [LinearOrderedField K] :
    getTileWorldSizeForZoom (K := K) 12 = 20 := by
  norm_num [getTileWorldSizeForZoom, TILE_BASE_SIZE, TILE_BASE_ZOOM]

/-- C2.  Outside the loaded grid footprint the height query answers
`-Infinity`; inside the footprint with no data installed in the owning slot it
answers `0`. -/
theorem C2_height_query_fallbacks {K : Type} [LinearOrderedField K]
    [FloorRing K] (s : EngineState K) (worldX worldZ : K) :
    (outOfGrid s worldX worldZ →
      getTerrainHeightAt s worldX worldZ = HeightResult.negInf) ∧
    (¬outOfGrid s worldX worldZ →
      List.lookup (tileIndexI s worldZ, tileIndexJ s worldX) s.heightData =
        none →
      getTerrainHeightAt s worldX worldZ = HeightResult.val 0) := by
  constructor
  · intro h
    rw [getTerrainHeightAt, if_pos h]
  · intro h hnone
    rw [getTerrainHeightAt, if_neg h, hnone]

/-- The empty engine state used by concrete witnesses: no decoded tiles at
all, zoom 12, grid at the origin. -/
def emptyGridState : EngineState ℚ :=
  ⟨fun _ _ => none, [], 0, 0, 12, 0⟩

theorem emptyGridState_tileJ_1000 : tileIndexJ emptyGridState 1000 = 50 := by
  rw [tileIndexJ]
  apply jsRound_eq <;> norm_num [emptyGridState, tileWorldSize_twelve]

theorem emptyGridState_tileJ_3 : tileIndexJ emptyGridState 3 = 0 := by
  rw [tileIndexJ]
  apply jsRound_eq <;> norm_num [emptyGridState, tileWorldSize_twelve]

theorem emptyGridState_tileI_7 : tileIndexI emptyGridState 7 = 0 := by
  rw [tileIndexI]
  apply jsRound_eq <;> norm_num [emptyGridState, tileWorldSize_twelve]

/-- Witness for C2 at concrete inputs: the query at `(1000, 0)` lands on tile
column 50, far outside the radius-2 grid, and answers `-Infinity`; the query
at `(3, 7)` lands on the uninstalled center tile and answers `0`. -/
theorem C2_height_query_fallbacks_witness :
    getTerrainHeightAt emptyGridState 1000 0 = HeightResult.negInf ∧
      getTerrainHeightAt emptyGridState 3 7 = HeightResult.val 0 := by
  constructor
  · refine (C2_height_query_fallbacks emptyGridState 1000 0).1 ?_
    right; right; right
    rw [emptyGridState_tileJ_1000]
    norm_num [emptyGridState, getGridRadiusForZoom]
  · refine (C2_height_query_fallbacks emptyGridState 3 7).2 ?_ rfl
    rw [outOfGrid, emptyGridState_tileJ_3, emptyGridState_tileI_7]
    norm_num [emptyGridState, getGridRadiusForZoom]

/-- C10.  For an in-footprint query on an installed tile: if the computed
bilinear sample indices fall outside the tile's bounds (`x1 < 0`,
`x2 ≥ width`, `z1 < 0` or `z2 ≥ height`), or any of the four fetched samples
is `undefined`, `getTerrainHeightAt` answers `0` instead of reading out of
bounds. -/
theorem C10_bilinear_bounds_fallback {K : Type} [LinearOrderedField K]
    [FloorRing K] (s : EngineState K) (worldX worldZ : K) (td : TileData K)
    (x1 z1 x2 z2 : ℤ)
    (hin : ¬outOfGrid s worldX worldZ)
    (hlook :
      List.lookup (tileIndexI s worldZ, tileIndexJ s worldX) s.heightData =
        some td)
    (hx1 : x1 =
      ⌊bilinCoord s (worldX - s.gridPosX) (tileIndexJ s worldX) td.width⌋)
    (hz1 : z1 =
      ⌊bilinCoord s (worldZ - s.gridPosZ) (tileIndexI s worldZ) td.height⌋)
    (hx2 : x2 =
      ⌈bilinCoord s (worldX - s.gridPosX) (tileIndexJ s worldX) td.width⌉)
    (hz2 : z2 =
      ⌈bilinCoord s (worldZ - s.gridPosZ) (tileIndexI s worldZ) td.height⌉)
    (o11 o12 o21 o22 : Option K)
    (ho11 : td.heights (z1 * td.width + x1) = o11)
    (ho12 : td.heights (z2 * td.width + x1) = o12)
    (ho21 : td.heights (z1 * td.width + x2) = o21)
    (ho22 : td.heights (z2 * td.width + x2) = o22) :
    (x1 < 0 ∨ x2 ≥ td.width ∨ z1 < 0 ∨ z2 ≥ td.height →
      getTerrainHeightAt s worldX worldZ = HeightResult.val 0) ∧
    (¬(x1 < 0 ∨ x2 ≥ td.width ∨ z1 < 0 ∨ z2 ≥ td.height) →
      o11 = none ∨ o12 = none ∨ o21 = none ∨ o22 = none →
      getTerrainHeightAt s worldX worldZ = HeightResult.val 0) := by
  subst hx1 hz1 hx2 hz2
  constructor
  · intro h
    rw [getTerrainHeightAt]
    simp only [if_neg hin, hlook]
    rw [if_pos h]
  · intro h hnone
    rw [getTerrainHeightAt]
    simp only [if_neg hin, hlook]
    rw [if_neg h, ho11, ho12, ho21, ho22]
    rcases o11 with _ | v1 <;> rcases o12 with _ | v2 <;>
      rcases o21 with _ | v3 <;> rcases o22 with _ | v4 <;>
      simp_all

/-- A loaded center tile whose decoded raster has degenerate dimensions
`0 × 0` (the decode loop "proceeds with actual dimensions"). -/
def zeroWidthTileState : EngineState ℚ :=
  ⟨fun _ _ => none, [((0, 0), ⟨fun _ => some 1, 0, 0⟩)], 0, 0, 12, 0⟩

/-- A loaded center tile of the usual `256 × 256` dimensions whose sample
array answers `undefined` everywhere. -/
def undefinedSamplesState : EngineState ℚ :=
  ⟨fun _ _ => none, [((0, 0), ⟨fun _ => none, 256, 256⟩)], 0, 0, 12, 0⟩

theorem tileIndexJ_zero_query (s : EngineState ℚ) (h1 : s.gridPosX = 0)
    (h2 : s.mapZoom = 12) : tileIndexJ s 0 = 0 := by
  rw [tileIndexJ]
  apply jsRound_eq <;> rw [h1, h2] <;> norm_num [tileWorldSize_twelve]

theorem tileIndexI_zero_query (s : EngineState ℚ) (h1 : s.gridPosZ = 0)
    (h2 : s.mapZoom = 12) : tileIndexI s 0 = 0 := by
  rw [tileIndexI]
  apply jsRound_eq <;> rw [h1, h2] <;> norm_num [tileWorldSize_twelve]

theorem notOutOfGrid_zero_query (s : EngineState ℚ) (h1 : s.gridPosX = 0)
    (h2 : s.gridPosZ = 0) (h3 : s.mapZoom = 12) : ¬outOfGrid s 0 0 := by
  rw [outOfGrid, tileIndexJ_zero_query s h1 h3, tileIndexI_zero_query s h2 h3,
    h3]
  norm_num [getGridRadiusForZoom]

/-- Witness for C10: on the degenerate `0 × 0` tile the computed floor index
is `-1 < 0`, and on the all-`undefined` tile all four fetched samples are
`undefined`; both queries answer `0`. -/
theorem C10_bilinear_bounds_fallback_witness :
    getTerrainHeightAt zeroWidthTileState 0 0 = HeightResult.val 0 ∧
      getTerrainHeightAt undefinedSamplesState 0 0 = HeightResult.val 0 := by
  have hb0 : bilinCoord zeroWidthTileState (0 - zeroWidthTileState.gridPosX)
      (tileIndexJ zeroWidthTileState 0) (0 : ℤ) = -1 / 2 := by
    rw [bilinCoord, tileIndexJ_zero_query zeroWidthTileState rfl rfl]
    norm_num [zeroWidthTileState, tileWorldSize_twelve]
  have hb0' : bilinCoord zeroWidthTileState (0 - zeroWidthTileState.gridPosZ)
      (tileIndexI zeroWidthTileState 0) (0 : ℤ) = -1 / 2 := by
    rw [bilinCoord, tileIndexI_zero_query zeroWidthTileState rfl rfl]
    norm_num [zeroWidthTileState, tileWorldSize_twelve]
  have hb1 : bilinCoord undefinedSamplesState
      (0 - undefinedSamplesState.gridPosX)
      (tileIndexJ undefinedSamplesState 0) (256 : ℤ) = 255 / 2 := by
    rw [bilinCoord, tileIndexJ_zero_query undefinedSamplesState rfl rfl]
    norm_num [undefinedSamplesState, tileWorldSize_twelve]
  have hb1' : bilinCoord undefinedSamplesState
      (0 - undefinedSamplesState.gridPosZ)
      (tileIndexI undefinedSamplesState 0) (256 : ℤ) = 255 / 2 := by
    rw [bilinCoord, tileIndexI_zero_query undefinedSamplesState rfl rfl]
    norm_num [undefinedSamplesState, tileWorldSize_twelve]
  constructor
  · refine (C10_bilinear_bounds_fallback zeroWidthTileState 0 0
        ⟨fun _ => some 1, 0, 0⟩ (-1) (-1) 0 0
        (notOutOfGrid_zero_query _ rfl rfl rfl) ?_ ?_ ?_ ?_ ?_
        (some 1) (some 1) (some 1) (some 1) rfl rfl rfl rfl).1 ?_
    · rw [tileIndexJ_zero_query zeroWidthTileState rfl rfl,
        tileIndexI_zero_query zeroWidthTileState rfl rfl]
      rfl
    · rw [show (⟨fun _ => some 1, 0, 0⟩ : TileData ℚ).width = 0 from rfl, hb0]
      rw [eq_comm, Int.floor_eq_iff]; norm_num
    · rw [show (⟨fun _ => some 1, 0, 0⟩ : TileData ℚ).height = 0 from rfl,
        hb0']
      rw [eq_comm, Int.floor_eq_iff]; norm_num
    · rw [show (⟨fun _ => some 1, 0, 0⟩ : TileData ℚ).width = 0 from rfl, hb0]
      rw [eq_comm, Int.ceil_eq_iff]; norm_num
    · rw [show (⟨fun _ => some 1, 0, 0⟩ : TileData ℚ).height = 0 from rfl,
        hb0']
      rw [eq_comm, Int.ceil_eq_iff]; norm_num
    · left; norm_num
  · refine (C10_bilinear_bounds_fallback undefinedSamplesState 0 0
        ⟨fun _ => none, 256, 256⟩ 127 127 128 128
        (notOutOfGrid_zero_query _ rfl rfl rfl) ?_ ?_ ?_ ?_ ?_
        none none none none rfl rfl rfl rfl).2 ?_ ?_
    · rw [tileIndexJ_zero_query undefinedSamplesState rfl rfl,
        tileIndexI_zero_query undefinedSamplesState rfl rfl]
      rfl
    · rw [show (⟨fun _ => none, 256, 256⟩ : TileData ℚ).width = 256 from rfl,
        hb1]
      rw [eq_comm, Int.floor_eq_iff]; norm_num
    · rw [show (⟨fun _ => none, 256, 256⟩ : TileData ℚ).height = 256 from rfl,
        hb1']
      rw [eq_comm, Int.floor_eq_iff]; norm_num
    · rw [show (⟨fun _ => none, 256, 256⟩ : TileData ℚ).width = 256 from rfl,
        hb1]
      rw [eq_comm, Int.ceil_eq_iff]; norm_num
    · rw [show (⟨fun _ => none, 256, 256⟩ : TileData ℚ).height = 256 from rfl,
        hb1']
      rw [eq_comm, Int.ceil_eq_iff]; norm_num
    · norm_num
    · left; rfl

/-! ## Raster decoding (`getTileData`, src/data.js)

The height-extraction loop of `getTileData`: after drawing the heightmap
image on a canvas, for every pixel `i` of the `width * height` raster the
RGBA byte array `data` yields
`height = (r * 256 + g + b / 256) - 32768` with `r = data[i*4]`,
`g = data[i*4+1]`, `b = data[i*4+2]`, and the stored sample is
`height * 0.005`.  The row-major pixel order of `getImageData` is preserved
by indexing the output list by the same `i`. -/

/-- The decode loop of `getTileData` producing the `heightArray` (row-major,
length `width * height`).  `0.005` is written `5 / 1000`. -/
def getTileHeights {K : Type} [LinearOrderedField K] (data : ℕ → K)
    (width height : ℕ) : List K :=
  (List.range (width * height)).map (fun i =>
    let r := data (i * 4)
    let g := data (i * 4 + 1)
    let b := data (i * 4 + 2)
    let ht := (r * 256 + g + b / 256) - 32768
    ht * (5 / 1000))

/-- C7.  Every decoded sample is `((r*256 + g + b/256) - 32768) * 0.005` for
its pixel's channels; decoding is deterministic; and an all-zero raster
decodes to `-163.84 = -(4096/25)` everywhere. -/
theorem C7_terrarium_decode {K : Type} [LinearOrderedField K]
    (data data' : ℕ → K) (width height : ℕ) :
    (∀ i : ℕ, i < width * height →
      (getTileHeights data width height)[i]? =
        some ((data (i * 4) * 256 + data (i * 4 + 1) + data (i * 4 + 2) / 256
          - 32768) * (5 / 1000))) ∧
    (data = data' →
      getTileHeights data width height = getTileHeights data' width height) ∧
    (∀ i : ℕ, i < width * height →
      (getTileHeights (fun _ => 0) width height)[i]? =
        some (-(4096 / 25 : K))) := by
  refine ⟨fun i hi => ?_, fun h => by rw [h], fun i hi => ?_⟩
  · simp [getTileHeights, List.getElem?_map, List.getElem?_range, hi]
  · simp only [getTileHeights, List.getElem?_map, List.getElem?_range, hi,
      Option.map_some]
    norm_num

/-- Witness for C7 on a concrete `1 × 1` raster with bytes `0,1,2,…`:
the single sample is `((0*256 + 1 + 2/256) - 32768) * 0.005`, decoding twice
agrees, and the all-zero raster decodes to `-163.84`. -/
theorem C7_terrarium_decode_witness :
    (getTileHeights (K := ℚ) (fun n => (n : ℚ)) 1 1)[0]? =
        some (((0 : ℚ) * 256 + 1 + 2 / 256 - 32768) * (5 / 1000)) ∧
      getTileHeights (K := ℚ) (fun n => (n : ℚ)) 1 1 =
        getTileHeights (K := ℚ) (fun n => (n : ℚ)) 1 1 ∧
      (getTileHeights (K := ℚ) (fun _ => 0) 1 1)[0]? =
        some (-(4096 / 25 : ℚ)) := by
  obtain ⟨h1, h2, h3⟩ :=
    C7_terrarium_decode (K := ℚ) (fun n => (n : ℚ)) (fun n => (n : ℚ)) 1 1
  refine ⟨?_, h2 rfl, h3 0 (by norm_num)⟩
  rw [h1 0 (by norm_num)]
  norm_num

/-! ## Slippy-map tile coordinate transform (src/data.js)

`lonLatToTileCoords` and `tileCoordsToLonLat` are the standard Web Mercator
formulas; they use `Math.log/tan/cos/atan/sinh`, so they are modelled over
`ℝ`. -/

/-- `dataManager.lonLatToTileCoords(lon, lat, zoom)`: returns the fractional
tile coordinates `(x, y)` (the returned `z` field merely echoes `zoom`). -/
noncomputable def lonLatToTileCoords (lon lat : ℝ) (zoom : ℕ) : ℝ × ℝ :=
  let n : ℝ := 2 ^ zoom
  let xtile := n * ((lon + 180) / 360)
  let latRad := lat * Real.pi / 180
  let ytile :=
    n * (1 - Real.log (Real.tan latRad + 1 / Real.cos latRad) / Real.pi) / 2
  (xtile, ytile)

/-- `dataManager.tileCoordsToLonLat(xtile, ytile, zoom)`: returns
`(lat_deg, lon_deg)` (the source returns `{ lat, lon }`). -/
noncomputable def tileCoordsToLonLat (xtile ytile : ℝ) (zoom : ℕ) : ℝ × ℝ :=
  let n : ℝ := 2 ^ zoom
  let lon_deg := xtile / n * 360 - 180
  let lat_rad := Real.arctan (Real.sinh (Real.pi * (1 - 2 * ytile / n)))
  (lat_rad * 180 / Real.pi, lon_deg)

/-- C6.  For `|lat| < 80` and zoom `0..20` the tile transform round-trips to
within `1e-6` degrees in each component (in the exact-arithmetic model it
round-trips exactly, which the proof establishes first). -/
theorem C6_tile_coords_roundtrip (lon lat : ℝ) (zoom : ℕ)
    (hlat : |lat| < 80) (_hzoom : zoom ≤ 20) :
    |(tileCoordsToLonLat (lonLatToTileCoords lon lat zoom).1
        (lonLatToTileCoords lon lat zoom).2 zoom).2 - lon| ≤ 1 / 1000000 ∧
    |(tileCoordsToLonLat (lonLatToTileCoords lon lat zoom).1
        (lonLatToTileCoords lon lat zoom).2 zoom).1 - lat| ≤ 1 / 1000000 := by
  have hpi := Real.pi_pos
  have hn : (0 : ℝ) < 2 ^ zoom := by positivity
  set φ := lat * Real.pi / 180 with hφ
  have hφ₂ : -(Real.pi / 2) < φ ∧ φ < Real.pi / 2 := by
    rw [abs_lt] at hlat
    constructor
    · have h := mul_pos (by linarith [hlat.1] : (0:ℝ) < lat + 90) hpi
      rw [hφ]
      nlinarith [h]
    · have h := mul_pos (by linarith [hlat.2] : (0:ℝ) < 90 - lat) hpi
      rw [hφ]
      nlinarith [h]
  have hcos : 0 < Real.cos φ := Real.cos_pos_of_mem_Ioo ⟨hφ₂.1, hφ₂.2⟩
  have hsin : -1 < Real.sin φ := by
    nlinarith [Real.sin_sq_add_cos_sq φ, Real.neg_one_le_sin φ]
  have ht : (0 : ℝ) < Real.tan φ + 1 / Real.cos φ := by
    rw [Real.tan_eq_sin_div_cos, div_add_div_same]
    exact div_pos (by linarith) hcos
  -- the longitude component round-trips exactly
  have hlon :
      (tileCoordsToLonLat (lonLatToTileCoords lon lat zoom).1
        (lonLatToTileCoords lon lat zoom).2 zoom).2 = lon := by
    simp only [lonLatToTileCoords, tileCoordsToLonLat]
    field_simp
    ring
  -- the latitude component round-trips exactly
  have hlat' :
      (tileCoordsToLonLat (lonLatToTileCoords lon lat zoom).1
        (lonLatToTileCoords lon lat zoom).2 zoom).1 = lat := by
    simp only [lonLatToTileCoords, tileCoordsToLonLat]
    have harg :
        Real.pi *
          (1 - 2 * ((2:ℝ) ^ zoom *
            (1 - Real.log (Real.tan φ + 1 / Real.cos φ) / Real.pi) / 2) /
              (2:ℝ) ^ zoom) =
          Real.log (Real.tan φ + 1 / Real.cos φ) := by
      field_simp
      ring
    rw [harg, Real.sinh_log ht]
    have hinv :
        (Real.tan φ + 1 / Real.cos φ -
            (Real.tan φ + 1 / Real.cos φ)⁻¹) / 2 = Real.tan φ := by
      have hne : Real.tan φ + 1 / Real.cos φ ≠ 0 := ne_of_gt ht
      rw [Real.tan_eq_sin_div_cos] at hne ⊢
      have hs1 : Real.sin φ + 1 ≠ 0 := by linarith
      have hcne : Real.cos φ ≠ 0 := ne_of_gt hcos
      field_simp
      nlinarith [Real.sin_sq_add_cos_sq φ]
    rw [hinv, Real.arctan_tan hφ₂.1 hφ₂.2]
    rw [hφ]
    field_simp
  rw [hlon, hlat']
  norm_num

/-- Witness for C6 at `lon = 30`, `lat = 45`, zoom `3`. -/
theorem C6_tile_coords_roundtrip_witness :
    |(tileCoordsToLonLat (lonLatToTileCoords 30 45 3).1
        (lonLatToTileCoords 30 45 3).2 3).2 - 30| ≤ 1 / 1000000 ∧
    |(tileCoordsToLonLat (lonLatToTileCoords 30 45 3).1
        (lonLatToTileCoords 30 45 3).2 3).1 - 45| ≤ 1 / 1000000 :=
  C6_tile_coords_roundtrip 30 45 3 (by norm_num) (by norm_num)

/-! ## Topographic time solver (`findTopoTime`, src/peakylight.js)

`findTopoTime(startTime, endTime, findFirstLight)` runs exactly 15 bisection
iterations over the millisecond timestamps of the two `Date` bounds, probing
`isLocationSunlit(new Date(mid))` at each midpoint.  Timestamps are modelled
as rationals and the occlusion probe as a boolean oracle on timestamps; the
final `new Date(bestTime)` wrapper (which truncates to integer milliseconds)
is not modelled.  The function is a plain loop: it is total and never
throws. -/

/-- The mutable loop state `(low, high, bestTime)` of `findTopoTime`. -/
structure TopoSearchState where
  low : ℚ
  high : ℚ
  bestTime : ℚ
deriving DecidableEq

/-- One iteration of the `findTopoTime` loop. -/
def findTopoTimeStep (isLit : ℚ → Bool) (findFirstLight : Bool)
    (st : TopoSearchState) : TopoSearchState :=
  let mid := st.low + (st.high - st.low) / 2
  if findFirstLight then
    if isLit mid then ⟨st.low, mid, mid⟩
    else ⟨mid, st.high, st.bestTime⟩
  else
    if isLit mid then ⟨mid, st.high, mid⟩
    else ⟨st.low, mid, st.bestTime⟩

/-- `findTopoTime` (src/peakylight.js): 15 bisection iterations starting from
`low = startTime`, `high = endTime`,
`bestTime = findFirstLight ? high : low`. -/
def findTopoTime (startTime endTime : ℚ) (findFirstLight : Bool)
    (isLit : ℚ → Bool) : ℚ :=
  ((findTopoTimeStep isLit findFirstLight)^[15]
    ⟨startTime, endTime, if findFirstLight then endTime else startTime⟩
    ).bestTime

/-- On a constantly-lit oracle the rising-edge search contracts toward the
start: after `n` iterations the state is
`⟨s, s + (e-s)/2^n, s + (e-s)/2^n⟩`. -/
theorem iterate_const_true_first (s e : ℚ) (n : ℕ) :
    (findTopoTimeStep (fun _ => true) true)^[n] ⟨s, e, e⟩ =
      ⟨s, s + (e - s) / 2 ^ n, s + (e - s) / 2 ^ n⟩ := by
  induction n with
  | zero => simp
  | succ n ih =>
    rw [Function.iterate_succ_apply', ih, findTopoTimeStep]
    have h : s + (s + (e - s) / 2 ^ n - s) / 2 = s + (e - s) / 2 ^ (n + 1) := by
      rw [pow_succ]; ring
    simp [h]
    all_goals rw [pow_succ]; ring

/-- On a constantly-lit oracle the falling-edge search contracts toward the
end: after `n` iterations the state is
`⟨e - (e-s)/2^n, e, e - (e-s)/2^n⟩`. -/
theorem iterate_const_true_last (s e : ℚ) (n : ℕ) :
    (findTopoTimeStep (fun _ => true) false)^[n] ⟨s, e, s⟩ =
      ⟨e - (e - s) / 2 ^ n, e, e - (e - s) / 2 ^ n⟩ := by
  induction n with
  | zero => simp
  | succ n ih =>
    rw [Function.iterate_succ_apply', ih, findTopoTimeStep]
    simp only [Bool.false_eq_true, if_false]
    have h :
        e - (e - s) / 2 ^ n + (e - (e - (e - s) / 2 ^ n)) / 2 =
          e - (e - s) / 2 ^ (n + 1) := by
      rw [pow_succ]; ring
    simp [h]
    all_goals rw [pow_succ]; ring

/-- On a constantly-occluded oracle the rising-edge search never updates
`bestTime`: after `n` iterations the state is `⟨e - (e-s)/2^n, e, e⟩`. -/
theorem iterate_const_false_first (s e : ℚ) (n : ℕ) :
    (findTopoTimeStep (fun _ => false) true)^[n] ⟨s, e, e⟩ =
      ⟨e - (e - s) / 2 ^ n, e, e⟩ := by
  induction n with
  | zero => simp
  | succ n ih =>
    rw [Function.iterate_succ_apply', ih, findTopoTimeStep]
    have h :
        e - (e - s) / 2 ^ n + (e - (e - (e - s) / 2 ^ n)) / 2 =
          e - (e - s) / 2 ^ (n + 1) := by
      rw [pow_succ]; ring
    simp [h]
    all_goals rw [pow_succ]; ring

/-- On a constantly-occluded oracle the falling-edge search never updates
`bestTime`: after `n` iterations the state is `⟨s, s + (e-s)/2^n, s⟩`. -/
theorem iterate_const_false_last (s e : ℚ) (n : ℕ) :
    (findTopoTimeStep (fun _ => false) false)^[n] ⟨s, e, s⟩ =
      ⟨s, s + (e - s) / 2 ^ n, s⟩ := by
  induction n with
  | zero => simp
  | succ n ih =>
    rw [Function.iterate_succ_apply', ih, findTopoTimeStep]
    have h :
        s + (s + (e - s) / 2 ^ n - s) / 2 = s + (e - s) / 2 ^ (n + 1) := by
      rw [pow_succ]; ring
    simp [h]
    all_goals rw [pow_succ]; ring

/-- Counterexample to C3 as stated: on the interval `[0, 32768]` with a
constantly-lit oracle the rising-edge search returns
`0 + 32768 / 2^15 = 1`, which is neither interval endpoint. -/
theorem C3_constant_oracle_counterexample :
    findTopoTime 0 32768 true (fun _ => true) ≠ 0 ∧
      findTopoTime 0 32768 true (fun _ => true) ≠ 32768 := by
  have h : findTopoTime 0 32768 true (fun _ => true) = 1 := by
    rw [findTopoTime, if_pos rfl, iterate_const_true_first]
    norm_num
  rw [h]
  norm_num

/-- C3 amended.  `findTopoTime` performs exactly 15 bisection iterations of
`findTopoTimeStep` (a fixed count, not an epsilon check) and is a total
function (never throws).  On a constantly-occluded oracle it returns the
far interval endpoint exactly (`endTime` for the rising-edge search,
`startTime` for the falling-edge search); on a constantly-lit oracle it does
NOT return an endpoint but the point at distance `(endTime - startTime)/2^15`
from the near endpoint. -/
theorem C3_fixed_bisection_amended (s e : ℚ) (f : Bool) (oracle : ℚ → Bool) :
    findTopoTime s e f oracle =
        ((findTopoTimeStep oracle f)^[15]
          ⟨s, e, if f then e else s⟩).bestTime ∧
      findTopoTime s e true (fun _ => false) = e ∧
      findTopoTime s e false (fun _ => false) = s ∧
      findTopoTime s e true (fun _ => true) = s + (e - s) / 2 ^ 15 ∧
      findTopoTime s e false (fun _ => true) = e - (e - s) / 2 ^ 15 := by
  refine ⟨rfl, ?_, ?_, ?_, ?_⟩
  · rw [findTopoTime, if_pos rfl, iterate_const_false_first]
  · rw [findTopoTime, if_neg (by simp), iterate_const_false_last]
  · rw [findTopoTime, if_pos rfl, iterate_const_true_first]
  · rw [findTopoTime, if_neg (by simp), iterate_const_true_last]

/-! ## Yearly topo-time cache (`cacheYearlyTopoTimes`, src/peakylight.js)

`topoTimesCache` is a global `{ lat, lon, year, data }` record, initially all
`null` with an empty `data` object.  `cacheYearlyTopoTimes` returns without
work when `(lat, lon, year)` match strictly (`===`) and `data` is non-empty;
otherwise it resets the record and, for each `day` from 1 to `daysInYear`,
computes the day's `SunCalc.getTimes` (an external oracle here) and invokes
`findTopoTime` twice.  `new Date(year, 1, 29).getDate() === 29` is the leap
test; per ECMAScript `Date` semantics, `Feb 29` of a non-leap year
normalizes to `Mar 1` (so `getDate()` is `1`), the calendar is proleptic
Gregorian, and a constructor year `0..99` means `1900 + year`.  The model
returns, next to the updated cache, the number of `findTopoTime` invocations
performed (0 on a cache hit, 2 per day on a rebuild); the DOM progress-bar
updates and the cooperative `await` yields are not modelled. -/

/-- One `topoTimesCache.data[day]` record. -/
structure TopoDayRecord where
  topoSunrise : ℚ
  topoSunset : ℚ
  sunrise : ℚ
  sunset : ℚ
deriving DecidableEq

/-- The global `topoTimesCache` record; `lat/lon/year` are `null` (`none`)
initially. -/
structure TopoTimesCache where
  lat : Option ℚ
  lon : Option ℚ
  year : Option ℤ
  data : List (ℤ × TopoDayRecord)

/-- Proleptic Gregorian leap-year rule, as implemented by JS `Date`. -/
def isGregorianLeap (y : ℤ) : Bool :=
  (y % 4 == 0 && y % 100 != 0) || y % 400 == 0

/-- ECMAScript `Date(year, …)` constructor rule: a year in `0..99` is
interpreted as `1900 + year`. -/
def jsDateYearAdjust (y : ℤ) : ℤ :=
  if 0 ≤ y ∧ y ≤ 99 then y + 1900 else y

/-- `new Date(year, 1, 29).getDate()`: `29` when February of the (adjusted)
year has a 29th day, else the date normalizes to March 1 and `getDate()` is
`1`. -/
def jsFeb29GetDate (y : ℤ) : ℤ :=
  if isGregorianLeap (jsDateYearAdjust y) then 29 else 1

/-- `const isLeap = new Date(year, 1, 29).getDate() === 29;
const daysInYear = isLeap ? 366 : 365;`. -/
def daysInYear (y : ℤ) : ℤ :=
  if jsFeb29GetDate y = 29 then 366 else 365

/-- The cache-validity test of `cacheYearlyTopoTimes`:
`topoTimesCache.lat === currentLocation.lat && … && year === year &&
Object.keys(topoTimesCache.data).length > 0`. -/
def cacheValid (c : TopoTimesCache) (lat lon : ℚ) (year : ℤ) : Prop :=
  c.lat = some lat ∧ c.lon = some lon ∧ c.year = some year ∧
    0 < c.data.length

instance (c : TopoTimesCache) (lat lon : ℚ) (year : ℤ) :
    Decidable (cacheValid c lat lon year) := by
  rw [cacheValid]; infer_instance

/-- `cacheYearlyTopoTimes` (src/peakylight.js).  `sunTimes day` is the
external-ephemeris triple `(sunrise, solarNoon, sunset)` for that day of the
year, in milliseconds; `litOracle` is the occlusion probe used by
`findTopoTime`.  Returns the updated cache and the number of `findTopoTime`
invocations performed. -/
def cacheYearlyTopoTimes (c : TopoTimesCache) (lat lon : ℚ) (year : ℤ)
    (sunTimes : ℤ → ℚ × ℚ × ℚ) (litOracle : ℚ → Bool) :
    TopoTimesCache × ℕ :=
  if cacheValid c lat lon year then (c, 0)
  else
    let days := (daysInYear year).toNat
    let newData := (List.range days).map (fun (k : ℕ) =>
      let day : ℤ := (k : ℤ) + 1
      let t := sunTimes day
      (day,
        { topoSunrise := findTopoTime t.1 t.2.1 true litOracle
          topoSunset := findTopoTime t.2.1 t.2.2 false litOracle
          sunrise := t.1
          sunset := t.2.2 }))
    ({ lat := some lat, lon := some lon, year := some year, data := newData },
      2 * days)

theorem daysInYear_toNat_pos (y : ℤ) : 0 < (daysInYear y).toNat := by
  rw [daysInYear]
  split <;> norm_num

/-- Counterexample to the "(standard Gregorian leap rule)" gloss in C5: for
`year = 0` the code computes `new Date(0, 1, 29)`, which per the two-digit
year rule is February 1900 — not a leap year — so the cache is built for 365
days, while year 0 itself satisfies the standard Gregorian leap rule. -/
theorem C5_leap_gloss_counterexample :
    daysInYear 0 = 365 ∧ isGregorianLeap 0 = true := by
  constructor <;> decide

/-- C5 amended.  (1) A call with a matching key and non-empty cache performs
no solver invocation and returns the cache unchanged; (2) consequently a
second call after any first call with the same key is free and returns the
first call's cache; (3) on any key mismatch (or empty cache) the cache is
rebuilt for days `1..daysInYear year`, with two solver invocations per day;
(4) the year has 366 days iff the standard Gregorian leap rule holds for the
`Date`-adjusted year (`year + 1900` when `0 ≤ year ≤ 99`, `year`
otherwise). -/
theorem C5_yearly_cache_amended (c : TopoTimesCache) (lat lon : ℚ)
    (year : ℤ) (sunTimes : ℤ → ℚ × ℚ × ℚ) (litOracle : ℚ → Bool) :
    (cacheValid c lat lon year →
      cacheYearlyTopoTimes c lat lon year sunTimes litOracle = (c, 0)) ∧
    (cacheYearlyTopoTimes
        (cacheYearlyTopoTimes c lat lon year sunTimes litOracle).1
        lat lon year sunTimes litOracle =
      ((cacheYearlyTopoTimes c lat lon year sunTimes litOracle).1, 0)) ∧
    (¬cacheValid c lat lon year →
      (cacheYearlyTopoTimes c lat lon year sunTimes litOracle).2 =
          2 * (daysInYear year).toNat ∧
        (cacheYearlyTopoTimes c lat lon year sunTimes litOracle).1.data.map
            Prod.fst =
          (List.range (daysInYear year).toNat).map
            (fun (k : ℕ) => (k : ℤ) + 1)) ∧
    (daysInYear year = 366 ↔
      isGregorianLeap (jsDateYearAdjust year) = true) := by
  refine ⟨?_, ?_, ?_, ?_⟩
  · intro h
    rw [cacheYearlyTopoTimes, if_pos h]
  · have hvalid : cacheValid
        (cacheYearlyTopoTimes c lat lon year sunTimes litOracle).1
        lat lon year := by
      rw [cacheYearlyTopoTimes]
      by_cases h : cacheValid c lat lon year
      · rw [if_pos h]
        exact h
      · rw [if_neg h]
        refine ⟨rfl, rfl, rfl, ?_⟩
        simp only [List.length_map, List.length_range]
        exact daysInYear_toNat_pos year
    rw [cacheYearlyTopoTimes, if_pos hvalid]
  · intro h
    rw [cacheYearlyTopoTimes, if_neg h]
    refine ⟨rfl, ?_⟩
    simp only [List.map_map]
    rfl
  · rw [daysInYear, jsFeb29GetDate]
    by_cases h : isGregorianLeap (jsDateYearAdjust year) = true <;>
      simp [h]

/-- Witness for C5 on the initial empty cache at `(0, 0, 2023)`: the key
check fails, and the rebuild performs `2 * 365 = 730` solver invocations. -/
theorem C5_yearly_cache_amended_witness :
    ¬cacheValid ⟨none, none, none, []⟩ 0 0 2023 ∧
      (cacheYearlyTopoTimes ⟨none, none, none, []⟩ 0 0 2023
          (fun _ => (0, 0, 0)) (fun _ => true)).2 = 730 := by
  have hnv : ¬cacheValid ⟨none, none, none, []⟩ 0 0 2023 := by
    rw [cacheValid]
    simp
  refine ⟨hnv, ?_⟩
  have h := (C5_yearly_cache_amended ⟨none, none, none, []⟩ 0 0 2023
    (fun _ => (0, 0, 0)) (fun _ => true)).2.2.1 hnv
  rw [h.1]
  decide

/-! ## Sun geometry and ray-march occlusion test (src/peakylight.js)

`getSunPosition` and `isLocationSunlit` compute with `Math.sin/cos/sqrt`, so
this part of the embedding is over `ℝ`.  The SunCalc ephemeris is an external
oracle: the `(altitude, azimuth)` pair it returns for
`(date, currentLocation)` enters as two real parameters, and
`locationMarker.position` enters as the `target` parameter. -/

/-- A `THREE.Vector3`. -/
structure Vec3 where
  x : ℝ
  y : ℝ
  z : ℝ

/-- Componentwise `a.add(b)`. -/
def vadd (a b : Vec3) : Vec3 := ⟨a.x + b.x, a.y + b.y, a.z + b.z⟩

/-- Componentwise `a.sub(b)`. -/
def vsub (a b : Vec3) : Vec3 := ⟨a.x - b.x, a.y - b.y, a.z - b.z⟩

/-- `v.multiplyScalar(c)`. -/
def vsmul (c : ℝ) (v : Vec3) : Vec3 := ⟨c * v.x, c * v.y, c * v.z⟩

/-- `a.lerp(b, t) = a + (b - a) * t`, componentwise. -/
def vlerp (a b : Vec3) (t : ℝ) : Vec3 :=
  ⟨a.x + (b.x - a.x) * t, a.y + (b.y - a.y) * t, a.z + (b.z - a.z) * t⟩

/-- `v.length() = sqrt(x*x + y*y + z*z)`. -/
noncomputable def vlength (v : Vec3) : ℝ :=
  Real.sqrt (v.x * v.x + v.y * v.y + v.z * v.z)

/-- `getSunPosition(date, radius)` (src/peakylight.js) with the SunCalc
`(altitude, azimuth)` for `(date, currentLocation)` supplied by the external
ephemeris oracle:
`sunY = radius*sin(alt)`, `sunR = radius*cos(alt)`,
`sunX = sunR*sin(az+π)`, `sunZ = sunR*cos(az+π)`. -/
noncomputable def getSunPosition (altitude azimuth radius : ℝ) : Vec3 :=
  let sunY := radius * Real.sin altitude
  let sunR := radius * Real.cos altitude
  ⟨sunR * Real.sin (azimuth + Real.pi), sunY,
    sunR * Real.cos (azimuth + Real.pi)⟩

/-- The `{ isLit, intersectionPoint }` record returned by
`isLocationSunlit`. -/
structure OcclusionResult where
  isLit : Bool
  intersectionPoint : Option Vec3

/-- The probe fractions of the refinement loop
`for (let j = 0.1; j <= 1.0; j += 0.2)`, unrolled in exact arithmetic:
`0.1, 0.3, 0.5, 0.7, 0.9` (then `1.1 > 1.0` stops; JS float accumulation
visits the same five probes at nearby values). -/
noncomputable def fineProbes : List ℝ := [1 / 10, 3 / 10, 1 / 2, 7 / 10, 9 / 10]

/-- The refinement loop body of `isLocationSunlit`: probe
`finePos = prevPos.lerp(currentPos, j)`; on the first probe whose height lies
below the terrain, snap its `y` to the terrain height and report it as the
blocking point. -/
noncomputable def fineScan (s : EngineState ℝ) (prevPos currentPos : Vec3) :
    List ℝ → Option Vec3
  | [] => none
  | j :: rest =>
    let finePos := vlerp prevPos currentPos j
    match getTerrainHeightAt s finePos.x finePos.z with
    | HeightResult.negInf => fineScan s prevPos currentPos rest
    | HeightResult.val h =>
      if finePos.y < h then some ⟨finePos.x, h, finePos.z⟩
      else fineScan s prevPos currentPos rest

/-- The coarse ray-march loop of `isLocationSunlit` over step indices
`i = 1 .. numSteps-1` with step size `2.0`:
`currentPos = sunPosition + rayDirection * (i * 2)`; a step whose height lies
below the terrain triggers the refinement scan from
`prevPos = sunPosition + rayDirection * ((i-1) * 2)`; if no fine probe
confirms, the coarse march continues.  A `-Infinity` terrain height never
triggers (`y < -Infinity` is false). -/
noncomputable def coarseScan (s : EngineState ℝ)
    (sunPosition rayDirection : Vec3) : List ℕ → Option Vec3
  | [] => none
  | i :: rest =>
    let currentPos := vadd sunPosition (vsmul ((i : ℝ) * 2) rayDirection)
    match getTerrainHeightAt s currentPos.x currentPos.z with
    | HeightResult.negInf => coarseScan s sunPosition rayDirection rest
    | HeightResult.val terrainHeight =>
      if currentPos.y < terrainHeight then
        let prevPos :=
          vadd sunPosition (vsmul (((i : ℝ) - 1) * 2) rayDirection)
        match fineScan s prevPos currentPos fineProbes with
        | some p => some p
        | none => coarseScan s sunPosition rayDirection rest
      else coarseScan s sunPosition rayDirection rest

/-- The step indices `i = 1, …, numSteps - 1` of the coarse march
(`for (let i = 1; i < numSteps; i++)`). -/
def stepIndices (numSteps : ℤ) : List ℕ :=
  (List.range (numSteps - 1).toNat).map (fun k => k + 1)

/-- `isLocationSunlit(date)` (src/peakylight.js).  `altitude`/`azimuth` are
the SunCalc ephemeris output for `(date, currentLocation)`; `target` is
`locationMarker.position`.  Short-circuits lit when no terrain data is
loaded; short-circuits occluded when the sun sits well below the observer
and the ephemeris altitude is negative; otherwise marches the ray from the
sun position (radius 10) toward the target with
`numSteps = floor(rayLength / 2)` coarse steps
(`rayDirection = normalize(target - sunPosition)`, where THREE's
`normalize` divides by `length || 1`). -/
noncomputable def isLocationSunlit (altitude azimuth : ℝ)
    (s : EngineState ℝ) (target : Vec3) : OcclusionResult :=
  if s.heightData.isEmpty then ⟨true, none⟩
  else
    let sunPosition := getSunPosition altitude azimuth 10
    if sunPosition.y < target.y - 5 ∧ altitude < 0 then ⟨false, none⟩
    else
      let rayVec := vsub target sunPosition
      let rayLength := vlength rayVec
      let rayDirection :=
        vsmul (1 / (if rayLength = 0 then 1 else rayLength)) rayVec
      let numSteps : ℤ := ⌊rayLength / 2⌋
      match coarseScan s sunPosition rayDirection (stepIndices numSteps) with
      | some p => ⟨false, some p⟩
      | none => ⟨true, none⟩

/-- The occlusion test reads the engine state but never writes it: the
returned state is the input state unchanged. -/
noncomputable def isLocationSunlitRun (altitude azimuth : ℝ)
    (s : EngineState ℝ) (target : Vec3) : OcclusionResult × EngineState ℝ :=
  (isLocationSunlit altitude azimuth s target, s)

/-- `getTerrainHeightAt` depends only on `heightData`, the grid position and
the zoom level. -/
theorem getTerrainHeightAt_congr {K : Type} [LinearOrderedField K]
    [FloorRing K] (s₁ s₂ : EngineState K)
    (h1 : s₁.heightData = s₂.heightData) (h2 : s₁.gridPosX = s₂.gridPosX)
    (h3 : s₁.gridPosZ = s₂.gridPosZ) (h4 : s₁.mapZoom = s₂.mapZoom) :
    getTerrainHeightAt s₁ = getTerrainHeightAt s₂ := by
  cases s₁
  cases s₂
  simp only at h1 h2 h3 h4
  subst h1 h2 h3 h4
  rfl

theorem fineScan_congr (s₁ s₂ : EngineState ℝ)
    (h1 : s₁.heightData = s₂.heightData) (h2 : s₁.gridPosX = s₂.gridPosX)
    (h3 : s₁.gridPosZ = s₂.gridPosZ) (h4 : s₁.mapZoom = s₂.mapZoom)
    (prevPos currentPos : Vec3) (l : List ℝ) :
    fineScan s₁ prevPos currentPos l = fineScan s₂ prevPos currentPos l := by
  induction l with
  | nil => rfl
  | cons j rest ih =>
    rw [fineScan, fineScan, getTerrainHeightAt_congr s₁ s₂ h1 h2 h3 h4, ih]

theorem coarseScan_congr (s₁ s₂ : EngineState ℝ)
    (h1 : s₁.heightData = s₂.heightData) (h2 : s₁.gridPosX = s₂.gridPosX)
    (h3 : s₁.gridPosZ = s₂.gridPosZ) (h4 : s₁.mapZoom = s₂.mapZoom)
    (sunPosition rayDirection : Vec3) (l : List ℕ) :
    coarseScan s₁ sunPosition rayDirection l =
      coarseScan s₂ sunPosition rayDirection l := by
  induction l with
  | nil => rfl
  | cons i rest ih =>
    rw [coarseScan, coarseScan, getTerrainHeightAt_congr s₁ s₂ h1 h2 h3 h4,
      ih]
    simp only [fineScan_congr s₁ s₂ h1 h2 h3 h4]

theorem isLocationSunlit_congr (altitude azimuth : ℝ)
    (s₁ s₂ : EngineState ℝ) (target : Vec3)
    (h1 : s₁.heightData = s₂.heightData) (h2 : s₁.gridPosX = s₂.gridPosX)
    (h3 : s₁.gridPosZ = s₂.gridPosZ) (h4 : s₁.mapZoom = s₂.mapZoom) :
    isLocationSunlit altitude azimuth s₁ target =
      isLocationSunlit altitude azimuth s₂ target := by
  rw [isLocationSunlit, isLocationSunlit, h1]
  simp only [coarseScan_congr s₁ s₂ h1 h2 h3 h4]

/-- C8.  The occlusion test is deterministic and effect-free: the state it
returns is its input state unchanged; its result does not depend on the
rendered meshes or the other mutable rendering globals (`renderMisc`), only
on the sun angles, the observer position and the loaded grid data
(`heightData`, grid position, zoom); and a second invocation on the state
returned by a first invocation yields the same result. -/
theorem C8_occlusion_deterministic_pure (altitude azimuth : ℝ)
    (meshes₁ meshes₂ : ℤ → ℤ → Option (MeshGeo ℝ))
    (hd : List ((ℤ × ℤ) × TileData ℝ)) (gx gz : ℝ) (zm : ℤ)
    (misc₁ misc₂ : ℝ) (target : Vec3) :
    (isLocationSunlitRun altitude azimuth
        ⟨meshes₁, hd, gx, gz, zm, misc₁⟩ target).2 =
        ⟨meshes₁, hd, gx, gz, zm, misc₁⟩ ∧
      isLocationSunlit altitude azimuth ⟨meshes₁, hd, gx, gz, zm, misc₁⟩
          target =
        isLocationSunlit altitude azimuth ⟨meshes₂, hd, gx, gz, zm, misc₂⟩
          target ∧
      (isLocationSunlitRun altitude azimuth
          (isLocationSunlitRun altitude azimuth
            ⟨meshes₁, hd, gx, gz, zm, misc₁⟩ target).2 target).1 =
        (isLocationSunlitRun altitude azimuth
          ⟨meshes₁, hd, gx, gz, zm, misc₁⟩ target).1 := by
  exact ⟨rfl,
    isLocationSunlit_congr altitude azimuth _ _ target rfl rfl rfl rfl, rfl⟩

/-- Bounds for `jsRound` from bounds on its argument. -/
theorem jsRound_bounds {K : Type} [LinearOrderedField K] [FloorRing K]
    {q : K} (hlo : -1 ≤ q) (hhi : q ≤ 1) :
    -1 ≤ jsRound q ∧ jsRound q ≤ 1 := by
  constructor
  · rw [jsRound]
    rw [Int.le_floor]
    push_cast
    linarith
  · rw [jsRound]
    rw [Int.floor_le_iff]
    push_cast
    linarith

/-- A flat all-zero heightfield hypothesis: every slot of the radius-2 grid
holds a `256 × 256` tile whose samples are all `0`. -/
def flatGrid (s : EngineState ℝ) : Prop :=
  ∀ i j : ℤ, -2 ≤ i → i ≤ 2 → -2 ≤ j → j ≤ 2 →
    ∃ td : TileData ℝ, List.lookup (i, j) s.heightData = some td ∧
      td.width = 256 ∧ td.height = 256 ∧ ∀ n : ℤ, td.heights n = some 0

/-- Over a flat all-zero radius-2 grid at zoom 12, any query within 20 world
units of the grid center interpolates to height `0`. -/
theorem flatGridHeight (s : EngineState ℝ) (hz : s.mapZoom = 12)
    (hflat : flatGrid s) (wx wz : ℝ)
    (hwx : |wx - s.gridPosX| ≤ 20) (hwz : |wz - s.gridPosZ| ≤ 20) :
    getTerrainHeightAt s wx wz = HeightResult.val 0 := by
  have htws : getTileWorldSizeForZoom (K := ℝ) s.mapZoom = 20 := by
    rw [hz]; exact tileWorldSize_twelve
  -- tile indices lie in [-1, 1]
  have hqx : -1 ≤ (wx - s.gridPosX) / 20 ∧ (wx - s.gridPosX) / 20 ≤ 1 := by
    rw [abs_le] at hwx
    constructor <;> [linarith [hwx.1]; linarith [hwx.2]]
  have hqz : -1 ≤ (wz - s.gridPosZ) / 20 ∧ (wz - s.gridPosZ) / 20 ≤ 1 := by
    rw [abs_le] at hwz
    constructor <;> [linarith [hwz.1]; linarith [hwz.2]]
  have hj : -1 ≤ tileIndexJ s wx ∧ tileIndexJ s wx ≤ 1 := by
    rw [tileIndexJ, htws]
    exact jsRound_bounds hqx.1 hqx.2
  have hi : -1 ≤ tileIndexI s wz ∧ tileIndexI s wz ≤ 1 := by
    rw [tileIndexI, htws]
    exact jsRound_bounds hqz.1 hqz.2
  have hout : ¬outOfGrid s wx wz := by
    rw [outOfGrid, hz]
    simp only [getGridRadiusForZoom, if_pos rfl]
    push_neg
    omega
  obtain ⟨td, hlook, hw, hh, hall⟩ :=
    hflat (tileIndexI s wz) (tileIndexJ s wx) (by omega) (by omega)
      (by omega) (by omega)
  -- the fractional sample coordinate lies in [0, 255)
  have key : ∀ q : ℝ, -1 ≤ q / 20 → q / 20 ≤ 1 →
      0 ≤ bilinCoord s q (jsRound (q / 20)) 256 ∧
        bilinCoord s q (jsRound (q / 20)) 256 < 255 := by
    intro q _ _
    have hfl₁ : (jsRound (q / 20) : ℝ) ≤ q / 20 + 1 / 2 :=
      Int.floor_le (q / 20 + 1 / 2)
    have hfl₂ : q / 20 + 1 / 2 < (jsRound (q / 20) : ℝ) + 1 :=
      Int.lt_floor_add_one (q / 20 + 1 / 2)
    rw [bilinCoord, htws]
    have hrw : (q - (jsRound (q / 20) : ℝ) * 20 + 20 / 2) / 20 *
        ((256 : ℤ) - 1 : ℝ) = (q / 20 + 1 / 2 - (jsRound (q / 20) : ℝ)) *
          255 := by
      push_cast
      ring
    rw [hrw]
    constructor
    · have : (0 : ℝ) ≤ q / 20 + 1 / 2 - (jsRound (q / 20) : ℝ) := by linarith
      positivity
    · nlinarith
  have keyx := key (wx - s.gridPosX) hqx.1 hqx.2
  have keyz := key (wz - s.gridPosZ) hqz.1 hqz.2
  rw [show jsRound ((wx - s.gridPosX) / 20) = tileIndexJ s wx by
      rw [tileIndexJ, htws]] at keyx
  rw [show jsRound ((wz - s.gridPosZ) / 20) = tileIndexI s wz by
      rw [tileIndexI, htws]] at keyz
  have hx1 : 0 ≤ ⌊bilinCoord s (wx - s.gridPosX) (tileIndexJ s wx) 256⌋ :=
    Int.le_floor.mpr (by exact_mod_cast keyx.1)
  have hx2 : ⌈bilinCoord s (wx - s.gridPosX) (tileIndexJ s wx) 256⌉ ≤ 255 :=
    Int.ceil_le.mpr (by exact_mod_cast le_of_lt keyx.2)
  have hz1 : 0 ≤ ⌊bilinCoord s (wz - s.gridPosZ) (tileIndexI s wz) 256⌋ :=
    Int.le_floor.mpr (by exact_mod_cast keyz.1)
  have hz2 : ⌈bilinCoord s (wz - s.gridPosZ) (tileIndexI s wz) 256⌉ ≤ 255 :=
    Int.ceil_le.mpr (by exact_mod_cast le_of_lt keyz.2)
  rw [getTerrainHeightAt]
  simp only [if_neg hout, hlook, hw, hh, hall]
  rw [if_neg (by push_neg; refine ⟨by omega, by omega, by omega, by omega⟩)]
  refine congrArg HeightResult.val ?_
  ring

/-- The coarse march finds no blocking point when no coarse sample ever dips
below the terrain. -/
theorem coarseScan_none (s : EngineState ℝ) (sun dir : Vec3) (l : List ℕ)
    (h : ∀ i ∈ l, ∀ th : ℝ,
      getTerrainHeightAt s (vadd sun (vsmul ((i : ℝ) * 2) dir)).x
          (vadd sun (vsmul ((i : ℝ) * 2) dir)).z = HeightResult.val th →
      ¬(vadd sun (vsmul ((i : ℝ) * 2) dir)).y < th) :
    coarseScan s sun dir l = none := by
  induction l with
  | nil => rfl
  | cons i rest ih =>
    rw [coarseScan]
    rcases hm : getTerrainHeightAt s
        (vadd sun (vsmul ((i : ℝ) * 2) dir)).x
        (vadd sun (vsmul ((i : ℝ) * 2) dir)).z with _ | th
    · simp only [hm]
      exact ih (fun i hi => h i (List.mem_cons_of_mem _ hi))
    · simp only [hm, if_neg (h i (List.mem_cons_self i rest) th hm)]
      exact ih (fun i hi => h i (List.mem_cons_of_mem _ hi))

/-- A march step from the sun toward the origin lands on a scalar multiple
of the sun position. -/
theorem vsmul_sun_point (sun : Vec3) (c : ℝ) :
    vadd sun (vsmul c (vsmul (1 / 10) (vsub ⟨0, 0, 0⟩ sun))) =
      vsmul (1 - c / 10) sun := by
  simp only [vadd, vsmul, vsub, Vec3.mk.injEq]
  refine ⟨by ring, by ring, by ring⟩

theorem vlerp_scaled (sun : Vec3) (b c t : ℝ) :
    vlerp (vsmul b sun) (vsmul c sun) t =
      vsmul (b + (c - b) * t) sun := by
  simp only [vlerp, vsmul, Vec3.mk.injEq]
  refine ⟨by ring, by ring, by ring⟩

/-- Over a flat radius-2 grid centered within 10 units of the origin, any
point of the segment between the origin and a sun position of norm at most
10 interpolates to height `0`. -/
theorem flatGridHeight_scaled (s : EngineState ℝ) (hz : s.mapZoom = 12)
    (hflat : flatGrid s) (hgx : |s.gridPosX| ≤ 10) (hgz : |s.gridPosZ| ≤ 10)
    (sun : Vec3) (hx : |sun.x| ≤ 10) (hzz : |sun.z| ≤ 10) (c : ℝ)
    (hc0 : 0 ≤ c) (hc1 : c ≤ 1) :
    getTerrainHeightAt s (vsmul c sun).x (vsmul c sun).z =
      HeightResult.val 0 := by
  apply flatGridHeight s hz hflat
  · simp only [vsmul]
    have h1 : |c * sun.x| ≤ 10 := by
      rw [abs_mul, abs_of_nonneg hc0]
      nlinarith [abs_nonneg sun.x]
    calc |c * sun.x - s.gridPosX| ≤ |c * sun.x| + |s.gridPosX| :=
          abs_sub _ _
      _ ≤ 20 := by linarith
  · simp only [vsmul]
    have h1 : |c * sun.z| ≤ 10 := by
      rw [abs_mul, abs_of_nonneg hc0]
      nlinarith [abs_nonneg sun.z]
    calc |c * sun.z - s.gridPosZ| ≤ |c * sun.z| + |s.gridPosZ| :=
          abs_sub _ _
      _ ≤ 20 := by linarith

/-- C4.  With a flat all-zero heightfield loaded, the observer sitting on it
at the origin, and the grid centered within half a tile of the origin: the
occlusion test reports lit whenever the ephemeris altitude is positive and
occluded whenever it is negative. -/
theorem C4_flat_terrain_occlusion (altitude azimuth : ℝ)
    (s : EngineState ℝ) (hz : s.mapZoom = 12) (hflat : flatGrid s)
    (hgx : |s.gridPosX| ≤ 10) (hgz : |s.gridPosZ| ≤ 10)
    (halt₁ : -(Real.pi / 2) ≤ altitude) (halt₂ : altitude ≤ Real.pi / 2) :
    (0 < altitude →
      (isLocationSunlit altitude azimuth s ⟨0, 0, 0⟩).isLit = true) ∧
    (altitude < 0 →
      (isLocationSunlit altitude azimuth s ⟨0, 0, 0⟩).isLit = false) := by
  have hpi := Real.pi_pos
  -- the grid is loaded
  have hne : ¬(s.heightData.isEmpty = true) := by
    obtain ⟨td, hlook, -⟩ :=
      hflat 0 0 (by norm_num) (by norm_num) (by norm_num) (by norm_num)
    intro hE
    rw [List.isEmpty_iff] at hE
    rw [hE] at hlook
    simp [List.lookup] at hlook
  -- sun position components
  have hsx : (getSunPosition altitude azimuth 10).x =
      10 * Real.cos altitude * Real.sin (azimuth + Real.pi) := by
    simp [getSunPosition]
  have hsy : (getSunPosition altitude azimuth 10).y =
      10 * Real.sin altitude := by
    simp [getSunPosition]
  have hsz : (getSunPosition altitude azimuth 10).z =
      10 * Real.cos altitude * Real.cos (azimuth + Real.pi) := by
    simp [getSunPosition]
  have habsx : |(getSunPosition altitude azimuth 10).x| ≤ 10 := by
    rw [hsx, abs_mul, abs_mul, abs_of_nonneg (by norm_num : (0:ℝ) ≤ 10)]
    nlinarith [Real.abs_cos_le_one altitude,
      Real.abs_sin_le_one (azimuth + Real.pi),
      abs_nonneg (Real.cos altitude),
      abs_nonneg (Real.sin (azimuth + Real.pi))]
  have habsz : |(getSunPosition altitude azimuth 10).z| ≤ 10 := by
    rw [hsz, abs_mul, abs_mul, abs_of_nonneg (by norm_num : (0:ℝ) ≤ 10)]
    nlinarith [Real.abs_cos_le_one altitude,
      Real.abs_cos_le_one (azimuth + Real.pi),
      abs_nonneg (Real.cos altitude),
      abs_nonneg (Real.cos (azimuth + Real.pi))]
  -- the ray from the sun to the origin has length exactly 10
  have hlen : vlength (vsub ⟨0, 0, 0⟩ (getSunPosition altitude azimuth 10)) =
      10 := by
    rw [vlength]
    simp only [vsub]
    have hsum : ((⟨0,0,0⟩ : Vec3).x - (getSunPosition altitude azimuth 10).x) *
          ((⟨0,0,0⟩ : Vec3).x - (getSunPosition altitude azimuth 10).x) +
        ((⟨0,0,0⟩ : Vec3).y - (getSunPosition altitude azimuth 10).y) *
          ((⟨0,0,0⟩ : Vec3).y - (getSunPosition altitude azimuth 10).y) +
        ((⟨0,0,0⟩ : Vec3).z - (getSunPosition altitude azimuth 10).z) *
          ((⟨0,0,0⟩ : Vec3).z - (getSunPosition altitude azimuth 10).z) =
        100 := by
      rw [hsx, hsy, hsz]
      have h1 := Real.sin_sq_add_cos_sq (azimuth + Real.pi)
      have h2 := Real.sin_sq_add_cos_sq altitude
      simp only
      nlinarith [h1, h2]
    rw [hsum, show (100 : ℝ) = 10 ^ 2 by norm_num,
      Real.sqrt_sq (by norm_num : (0:ℝ) ≤ 10)]
  have hfloor : (⌊(10 : ℝ) / 2⌋ : ℤ) = 5 := by
    rw [show (10 : ℝ) / 2 = ((5 : ℤ) : ℝ) by norm_num, Int.floor_intCast]
  have hsteps : stepIndices 5 = [1, 2, 3, 4] := by rfl
  constructor
  · -- positive altitude: lit
    intro hpos
    have hsinpos : 0 < Real.sin altitude :=
      Real.sin_pos_of_pos_of_lt_pi hpos (by linarith)
    have hscan : coarseScan s (getSunPosition altitude azimuth 10)
        (vsmul (1 / 10)
          (vsub ⟨0, 0, 0⟩ (getSunPosition altitude azimuth 10)))
        [1, 2, 3, 4] = none := by
      apply coarseScan_none
      intro i hi th hth
      have hi' : 1 ≤ i ∧ i ≤ 4 := by
        fin_cases hi <;> omega
      have hc0 : (0 : ℝ) ≤ 1 - (i : ℝ) * 2 / 10 := by
        have : (i : ℝ) ≤ 4 := by exact_mod_cast hi'.2
        linarith
      have hc1 : (1 : ℝ) - (i : ℝ) * 2 / 10 ≤ 1 := by
        have : (1 : ℝ) ≤ (i : ℝ) := by exact_mod_cast hi'.1
        linarith
      rw [vsmul_sun_point] at hth
      rw [flatGridHeight_scaled s hz hflat hgx hgz _ habsx habsz _ hc0 hc1]
        at hth
      have hth0 : th = 0 := by
        cases hth
        rfl
      rw [vsmul_sun_point, hth0]
      simp only [vsmul, hsy]
      push_neg
      nlinarith
    rw [isLocationSunlit, if_neg hne,
      if_neg (by rintro ⟨-, hneg⟩; linarith)]
    simp only [hlen, if_neg (show ¬((10 : ℝ) = 0) by norm_num), hfloor,
      hsteps, hscan]
  · -- negative altitude: occluded
    intro hneg
    have hsinneg : Real.sin altitude < 0 :=
      Real.sin_neg_of_neg_of_neg_pi_lt hneg (by linarith)
    by_cases hearly :
        (getSunPosition altitude azimuth 10).y < (⟨0,0,0⟩ : Vec3).y - 5 ∧
          altitude < 0
    · rw [isLocationSunlit, if_neg hne, if_pos hearly]
    · -- march: the first coarse step already dips below the flat terrain
      have hcur : vadd (getSunPosition altitude azimuth 10)
          (vsmul (((1 : ℕ) : ℝ) * 2)
            (vsmul (1 / 10)
              (vsub ⟨0, 0, 0⟩ (getSunPosition altitude azimuth 10)))) =
          vsmul (4 / 5) (getSunPosition altitude azimuth 10) := by
        rw [vsmul_sun_point,
          show (1 : ℝ) - ((1 : ℕ) : ℝ) * 2 / 10 = 4 / 5 by norm_num]
      have hprev : vadd (getSunPosition altitude azimuth 10)
          (vsmul ((((1 : ℕ) : ℝ) - 1) * 2)
            (vsmul (1 / 10)
              (vsub ⟨0, 0, 0⟩ (getSunPosition altitude azimuth 10)))) =
          vsmul 1 (getSunPosition altitude azimuth 10) := by
        rw [vsmul_sun_point,
          show (1 : ℝ) - (((1 : ℕ) : ℝ) - 1) * 2 / 10 = 1 by norm_num]
      have hfine : vlerp (vsmul 1 (getSunPosition altitude azimuth 10))
          (vsmul (4 / 5) (getSunPosition altitude azimuth 10)) (1 / 10) =
          vsmul (49 / 50) (getSunPosition altitude azimuth 10) := by
        rw [vlerp_scaled,
          show (1 : ℝ) + (4 / 5 - 1) * (1 / 10) = 49 / 50 by norm_num]
      have hflat45 := flatGridHeight_scaled s hz hflat hgx hgz _ habsx habsz
        (4 / 5) (by norm_num) (by norm_num)
      have hflat49 := flatGridHeight_scaled s hz hflat hgx hgz _ habsx habsz
        (49 / 50) (by norm_num) (by norm_num)
      have hy45 : (vsmul (4 / 5) (getSunPosition altitude azimuth 10)).y <
          0 := by
        simp only [vsmul, hsy]
        nlinarith
      have hy49 : (vsmul (49 / 50) (getSunPosition altitude azimuth 10)).y <
          0 := by
        simp only [vsmul, hsy]
        nlinarith
      have hscan : coarseScan s (getSunPosition altitude azimuth 10)
          (vsmul (1 / 10)
            (vsub ⟨0, 0, 0⟩ (getSunPosition altitude azimuth 10)))
          [1, 2, 3, 4] =
          some ⟨(vsmul (49 / 50) (getSunPosition altitude azimuth 10)).x, 0,
            (vsmul (49 / 50) (getSunPosition altitude azimuth 10)).z⟩ := by
        rw [coarseScan]
        simp only [hcur, hprev, hflat45, if_pos hy45]
        rw [show fineProbes =
          (1 / 10 : ℝ) :: [3 / 10, 1 / 2, 7 / 10, 9 / 10] from rfl]
        rw [fineScan]
        simp only [hfine, hflat49, if_pos hy49]
      rw [isLocationSunlit, if_neg hne, if_neg hearly]
      simp only [hlen, if_neg (show ¬((10 : ℝ) = 0) by norm_num), hfloor,
        hsteps, hscan]

/-- A decoded `256 × 256` tile whose samples are all zero. -/
noncomputable def flatTile : TileData ℝ := ⟨fun _ => some 0, 256, 256⟩

/-- A fully loaded radius-2 grid of flat tiles at zoom 12, centered at the
origin. -/
noncomputable def flatState : EngineState ℝ :=
  ⟨fun _ _ => none,
    [((-2, -2), flatTile), ((-2, -1), flatTile), ((-2, 0), flatTile),
      ((-2, 1), flatTile), ((-2, 2), flatTile),
      ((-1, -2), flatTile), ((-1, -1), flatTile), ((-1, 0), flatTile),
      ((-1, 1), flatTile), ((-1, 2), flatTile),
      ((0, -2), flatTile), ((0, -1), flatTile), ((0, 0), flatTile),
      ((0, 1), flatTile), ((0, 2), flatTile),
      ((1, -2), flatTile), ((1, -1), flatTile), ((1, 0), flatTile),
      ((1, 1), flatTile), ((1, 2), flatTile),
      ((2, -2), flatTile), ((2, -1), flatTile), ((2, 0), flatTile),
      ((2, 1), flatTile), ((2, 2), flatTile)],
    0, 0, 12, 0⟩

theorem flatState_flatGrid : flatGrid flatState := by
  intro i j h1 h2 h3 h4
  refine ⟨flatTile, ?_, rfl, rfl, fun _ => rfl⟩
  interval_cases i <;> interval_cases j <;> rfl

/-- Witness for C4 at altitude `1` radian (lit) and `-1` radian (occluded)
over the concrete flat grid. -/
theorem C4_flat_terrain_occlusion_witness :
    (0 : ℝ) < 1 ∧
      (isLocationSunlit 1 0 flatState ⟨0, 0, 0⟩).isLit = true ∧
      (-1 : ℝ) < 0 ∧
      (isLocationSunlit (-1) 0 flatState ⟨0, 0, 0⟩).isLit = false := by
  have hpi3 := Real.pi_gt_three
  refine ⟨by norm_num, ?_, by norm_num, ?_⟩
  · exact (C4_flat_terrain_occlusion 1 0 flatState rfl flatState_flatGrid
      (by norm_num [flatState]) (by norm_num [flatState])
      (by linarith) (by linarith)).1 (by norm_num)
  · exact (C4_flat_terrain_occlusion (-1) 0 flatState rfl flatState_flatGrid
      (by norm_num [flatState]) (by norm_num [flatState])
      (by linarith) (by linarith)).2 (by norm_num)

/-! ## Boundary stitching (`synchronizeTileBoundaries`, src/peakylight.js)

The stitching pass iterates the `(2r+1) × (2r+1)` grid in row-major order
(`i` outer, `j` inner).  For each present tile it averages, vertex by
vertex, its right edge with the left edge of the right neighbor
(`j < gridRadius`), then its bottom edge with the top edge of the bottom
neighbor (`i < gridRadius`), writing the average into both vertex buffers
and refreshing the tile's own skirt vertex for each written edge vertex.
`gridSize = 256`, so the edge indices are `iy * 256 + 255` / `iy * 256`
(right/left columns) and `65280 + ix` / `ix` (bottom/top rows,
`65280 = 255 * 256`).  The pass only ever writes
`geometry.attributes.position` z-components; `needsUpdate`,
`computeVertexNormals` and the trailing `stitchTileNormals` touch only
normals and are not modelled. -/

/-- The `terrainGrid` mesh collection indexed by tile name. -/
def MeshMap (K : Type) : Type := ℤ → ℤ → Option (MeshGeo K)

/-- `vertices.setZ(idx, v)` on a z-buffer. -/
def updZ {K : Type} (f : ℕ → K) (idx : ℕ) (v : K) : ℕ → K :=
  fun n => if n = idx then v else f n

/-- Store a mutated mesh back under its tile name. -/
def updMesh {K : Type} (m : MeshMap K) (i j : ℤ) (g : MeshGeo K) :
    MeshMap K :=
  fun a b => if a = i ∧ b = j then some g else m a b

/-- One `iy` iteration of the right-edge synchronization loop: average this
tile's right-edge vertex `iy * 256 + 255` with the right tile's left-edge
vertex `iy * 256` (`255 = gridSize - 1`), write the average into both
buffers, and update this tile's skirt vertex for the written edge vertex. -/
def syncStepH {K : Type} [LinearOrderedField K] (p : MeshGeo K × MeshGeo K)
    (iy : ℕ) : MeshGeo K × MeshGeo K :=
  let t := p.1
  let rt := p.2
  let thisEdgeIndex := iy * 256 + 255
  let rightEdgeIndex := iy * 256
  let thisHeight := t.z thisEdgeIndex
  let rightHeight := rt.z rightEdgeIndex
  let avgHeight := (thisHeight + rightHeight) / 2
  let t' := { t with z := updZ t.z thisEdgeIndex avgHeight }
  let rt' := { rt with z := updZ rt.z rightEdgeIndex avgHeight }
  match t'.edgeToSkirtMap thisEdgeIndex with
  | some skirtIndex =>
    ({ t' with
        z := (updZ t'.z (t'.topVerticesCount + skirtIndex)
          (avgHeight - t'.skirtDepth)) },
      rt')
  | none => (t', rt')

/-- One `ix` iteration of the bottom-edge synchronization loop: average this
tile's bottom-edge vertex `255 * 256 + ix = 65280 + ix` with the bottom
tile's top-edge vertex `ix`. -/
def syncStepV {K : Type} [LinearOrderedField K] (p : MeshGeo K × MeshGeo K)
    (ix : ℕ) : MeshGeo K × MeshGeo K :=
  let t := p.1
  let bt := p.2
  let thisEdgeIndex := 65280 + ix
  let bottomEdgeIndex := ix
  let thisHeight := t.z thisEdgeIndex
  let bottomHeight := bt.z bottomEdgeIndex
  let avgHeight := (thisHeight + bottomHeight) / 2
  let t' := { t with z := updZ t.z thisEdgeIndex avgHeight }
  let bt' := { bt with z := updZ bt.z bottomEdgeIndex avgHeight }
  match t'.edgeToSkirtMap thisEdgeIndex with
  | some skirtIndex =>
    ({ t' with
        z := (updZ t'.z (t'.topVerticesCount + skirtIndex)
          (avgHeight - t'.skirtDepth)) },
      bt')
  | none => (t', bt')

/-- The full right-edge loop `for (let iy = 0; iy < 256; iy++)`. -/
def syncEdgesH {K : Type} [LinearOrderedField K] (t rt : MeshGeo K) :
    MeshGeo K × MeshGeo K :=
  (List.range 256).foldl syncStepH (t, rt)

/-- The full bottom-edge loop `for (let ix = 0; ix < 256; ix++)`. -/
def syncEdgesV {K : Type} [LinearOrderedField K] (t bt : MeshGeo K) :
    MeshGeo K × MeshGeo K :=
  (List.range 256).foldl syncStepV (t, bt)

/-- The "synchronize with right neighbor" block of tile `(i, j)`. -/
def syncRight {K : Type} [LinearOrderedField K] (r : ℤ) (m : MeshMap K)
    (i j : ℤ) : MeshMap K :=
  if j < r then
    match m i j, m i (j + 1) with
    | some t, some rt =>
      let p := syncEdgesH t rt
      updMesh (updMesh m i j p.1) i (j + 1) p.2
    | _, _ => m
  else m

/-- The "synchronize with bottom neighbor" block of tile `(i, j)`. -/
def syncBottom {K : Type} [LinearOrderedField K] (r : ℤ) (m : MeshMap K)
    (i j : ℤ) : MeshMap K :=
  if i < r then
    match m i j, m (i + 1) j with
    | some t, some bt =>
      let p := syncEdgesV t bt
      updMesh (updMesh m i j p.1) (i + 1) j p.2
    | _, _ => m
  else m

/-- The loop body for tile `(i, j)`: skip absent tiles, otherwise run the
right-edge synchronization and then the bottom-edge synchronization (which
sees the buffers just mutated by the former). -/
def syncTileMeshes {K : Type} [LinearOrderedField K] (r : ℤ) (m : MeshMap K)
    (ij : ℤ × ℤ) : MeshMap K :=
  match m ij.1 ij.2 with
  | none => m
  | some _ => syncBottom r (syncRight r m ij.1 ij.2) ij.1 ij.2

/-- The row-major coordinate range `-r .. r`. -/
def gridRange (r : ℤ) : List ℤ :=
  (List.range (2 * r + 1).toNat).map (fun (a : ℕ) => -r + (a : ℤ))

/-- The row-major tile coordinates visited by the two nested loops
(`i` outer, `j` inner). -/
def gridCoords (r : ℤ) : List (ℤ × ℤ) :=
  (gridRange r).flatMap (fun i => (gridRange r).map (fun j => (i, j)))

/-- `synchronizeTileBoundaries(gridRadius)` (src/peakylight.js): fold the
per-tile synchronization over the grid in source order.  Only the mesh
collection changes; `terrainHeightData` and the rest of the engine state
are untouched. -/
def synchronizeTileBoundaries {K : Type} [LinearOrderedField K] (r : ℤ)
    (s : EngineState K) : EngineState K :=
  { s with meshes := (gridCoords r).foldl (syncTileMeshes r) s.meshes }

/-- C9.  Boundary stitching writes only to the rendered mesh vertex
buffers: `terrainHeightData` is unchanged, and therefore every height query
and every occlusion query returns the same value before and after the
pass. -/
theorem C9_stitching_preserves_queries (r : ℤ) (s : EngineState ℝ)
    (worldX worldZ altitude azimuth : ℝ) (target : Vec3) :
    (synchronizeTileBoundaries r s).heightData = s.heightData ∧
      getTerrainHeightAt (synchronizeTileBoundaries r s) worldX worldZ =
        getTerrainHeightAt s worldX worldZ ∧
      isLocationSunlit altitude azimuth (synchronizeTileBoundaries r s)
          target =
        isLocationSunlit altitude azimuth s target := by
  refine ⟨rfl, ?_, ?_⟩
  · exact congrFun
      (congrFun (getTerrainHeightAt_congr _ _ rfl rfl rfl rfl) worldX) worldZ
  · exact isLocationSunlit_congr altitude azimuth _ _ target rfl rfl rfl rfl

/-! ### Write locality of the edge-synchronization loops

The analysis of `synchronizeTileBoundaries` rests on which vertices each
loop writes: the right-edge loop of tile `(i, j)` writes this tile's column
255 (`iy * 256 + 255`) and its own skirt vertices (indices
`topVerticesCount + k ≥ 65536` for the 65536-vertex tiles), and the right
tile's column 0 (`iy * 256`); the bottom-edge loop writes this tile's row
255 (`65280 + ix`) and skirt, and the bottom tile's row 0 (`ix`). -/

/-- The z-value stored at one vertex of one tile mesh. -/
def zAt {K : Type} (m : MeshMap K) (i j : ℤ) (idx : ℕ) : Option K :=
  (m i j).map (fun g => g.z idx)

/-- The `topVerticesCount` of one tile mesh. -/
def topVertAt {K : Type} (m : MeshMap K) (i j : ℤ) : Option ℕ :=
  (m i j).map (fun g => g.topVerticesCount)

theorem syncStepH_fst_topVert {K : Type} [LinearOrderedField K]
    (p : MeshGeo K × MeshGeo K) (iy : ℕ) :
    (syncStepH p iy).1.topVerticesCount = p.1.topVerticesCount := by
  rw [syncStepH]
  cases hsk : p.1.edgeToSkirtMap (iy * 256 + 255) <;> simp [hsk]

theorem syncStepH_snd_topVert {K : Type} [LinearOrderedField K]
    (p : MeshGeo K × MeshGeo K) (iy : ℕ) :
    (syncStepH p iy).2.topVerticesCount = p.2.topVerticesCount := by
  rw [syncStepH]
  cases hsk : p.1.edgeToSkirtMap (iy * 256 + 255) <;> simp [hsk]

theorem syncStepH_fst_z {K : Type} [LinearOrderedField K]
    (p : MeshGeo K × MeshGeo K) (iy idx : ℕ)
    (h65536 : p.1.topVerticesCount = 65536) (hidx : idx < 65536)
    (hne : idx ≠ iy * 256 + 255) :
    (syncStepH p iy).1.z idx = p.1.z idx := by
  rw [syncStepH]
  cases hsk : p.1.edgeToSkirtMap (iy * 256 + 255) with
  | none => simp [hsk, updZ, hne]
  | some sk =>
    simp only [hsk]
    simp [updZ, hne, h65536, show idx ≠ 65536 + sk by omega]

theorem syncStepH_snd_z {K : Type} [LinearOrderedField K]
    (p : MeshGeo K × MeshGeo K) (iy idx : ℕ) (hne : idx ≠ iy * 256) :
    (syncStepH p iy).2.z idx = p.2.z idx := by
  rw [syncStepH]
  cases hsk : p.1.edgeToSkirtMap (iy * 256 + 255) <;> simp [hsk, updZ, hne]

theorem syncStepH_write {K : Type} [LinearOrderedField K]
    (p : MeshGeo K × MeshGeo K) (iy : ℕ)
    (h65536 : p.1.topVerticesCount = 65536) (hiy : iy ≤ 255) :
    (syncStepH p iy).1.z (iy * 256 + 255) =
        (p.1.z (iy * 256 + 255) + p.2.z (iy * 256)) / 2 ∧
      (syncStepH p iy).2.z (iy * 256) =
        (p.1.z (iy * 256 + 255) + p.2.z (iy * 256)) / 2 := by
  rw [syncStepH]
  cases hsk : p.1.edgeToSkirtMap (iy * 256 + 255) with
  | none => simp [hsk, updZ]
  | some sk =>
    simp only [hsk]
    constructor
    · simp [updZ, h65536, show iy * 256 + 255 ≠ 65536 + sk by omega]
    · simp [updZ]

theorem syncStepV_fst_topVert {K : Type} [LinearOrderedField K]
    (p : MeshGeo K × MeshGeo K) (ix : ℕ) :
    (syncStepV p ix).1.topVerticesCount = p.1.topVerticesCount := by
  rw [syncStepV]
  cases hsk : p.1.edgeToSkirtMap (65280 + ix) <;> simp [hsk]

theorem syncStepV_snd_topVert {K : Type} [LinearOrderedField K]
    (p : MeshGeo K × MeshGeo K) (ix : ℕ) :
    (syncStepV p ix).2.topVerticesCount = p.2.topVerticesCount := by
  rw [syncStepV]
  cases hsk : p.1.edgeToSkirtMap (65280 + ix) <;> simp [hsk]

theorem syncStepV_fst_z {K : Type} [LinearOrderedField K]
    (p : MeshGeo K × MeshGeo K) (ix idx : ℕ)
    (h65536 : p.1.topVerticesCount = 65536) (hidx : idx < 65536)
    (hne : idx ≠ 65280 + ix) :
    (syncStepV p ix).1.z idx = p.1.z idx := by
  rw [syncStepV]
  cases hsk : p.1.edgeToSkirtMap (65280 + ix) with
  | none => simp [hsk, updZ, hne]
  | some sk =>
    simp only [hsk]
    simp [updZ, hne, h65536, show idx ≠ 65536 + sk by omega]

theorem syncStepV_snd_z {K : Type} [LinearOrderedField K]
    (p : MeshGeo K × MeshGeo K) (ix idx : ℕ) (hne : idx ≠ ix) :
    (syncStepV p ix).2.z idx = p.2.z idx := by
  rw [syncStepV]
  cases hsk : p.1.edgeToSkirtMap (65280 + ix) <;> simp [hsk, updZ, hne]

theorem syncStepV_write {K : Type} [LinearOrderedField K]
    (p : MeshGeo K × MeshGeo K) (ix : ℕ)
    (h65536 : p.1.topVerticesCount = 65536) (hix : ix ≤ 255) :
    (syncStepV p ix).1.z (65280 + ix) =
        (p.1.z (65280 + ix) + p.2.z ix) / 2 ∧
      (syncStepV p ix).2.z ix = (p.1.z (65280 + ix) + p.2.z ix) / 2 := by
  rw [syncStepV]
  cases hsk : p.1.edgeToSkirtMap (65280 + ix) with
  | none => simp [hsk, updZ]
  | some sk =>
    simp only [hsk]
    constructor
    · simp [updZ, h65536, show 65280 + ix ≠ 65536 + sk by omega]
    · simp [updZ]

theorem foldH_fst_topVert {K : Type} [LinearOrderedField K] (l : List ℕ) :
    ∀ p : MeshGeo K × MeshGeo K,
      (l.foldl syncStepH p).1.topVerticesCount = p.1.topVerticesCount := by
  induction l with
  | nil => intro p; rfl
  | cons a tl ih =>
    intro p
    rw [List.foldl_cons, ih, syncStepH_fst_topVert]

theorem foldH_snd_topVert {K : Type} [LinearOrderedField K] (l : List ℕ) :
    ∀ p : MeshGeo K × MeshGeo K,
      (l.foldl syncStepH p).2.topVerticesCount = p.2.topVerticesCount := by
  induction l with
  | nil => intro p; rfl
  | cons a tl ih =>
    intro p
    rw [List.foldl_cons, ih, syncStepH_snd_topVert]

theorem foldH_fst_z {K : Type} [LinearOrderedField K] (l : List ℕ) :
    ∀ (p : MeshGeo K × MeshGeo K) (idx : ℕ),
      p.1.topVerticesCount = 65536 → idx < 65536 →
      (∀ iy ∈ l, idx ≠ iy * 256 + 255) →
      (l.foldl syncStepH p).1.z idx = p.1.z idx := by
  induction l with
  | nil => intro p idx _ _ _; rfl
  | cons a tl ih =>
    intro p idx h65536 hidx hne
    rw [List.foldl_cons,
      ih (syncStepH p a) idx (by rw [syncStepH_fst_topVert]; exact h65536)
        hidx (fun iy hiy => hne iy (List.mem_cons_of_mem _ hiy)),
      syncStepH_fst_z p a idx h65536 hidx (hne a (List.mem_cons_self a tl))]

theorem foldH_snd_z {K : Type} [LinearOrderedField K] (l : List ℕ) :
    ∀ (p : MeshGeo K × MeshGeo K) (idx : ℕ),
      (∀ iy ∈ l, idx ≠ iy * 256) →
      (l.foldl syncStepH p).2.z idx = p.2.z idx := by
  induction l with
  | nil => intro p idx _; rfl
  | cons a tl ih =>
    intro p idx hne
    rw [List.foldl_cons,
      ih (syncStepH p a) idx (fun iy hiy => hne iy (List.mem_cons_of_mem _
        hiy)),
      syncStepH_snd_z p a idx (hne a (List.mem_cons_self a tl))]

theorem foldH_write {K : Type} [LinearOrderedField K] (l : List ℕ) :
    ∀ (p : MeshGeo K × MeshGeo K) (iy : ℕ),
      p.1.topVerticesCount = 65536 → l.Nodup → iy ∈ l → iy ≤ 255 →
      (l.foldl syncStepH p).1.z (iy * 256 + 255) =
          (p.1.z (iy * 256 + 255) + p.2.z (iy * 256)) / 2 ∧
        (l.foldl syncStepH p).2.z (iy * 256) =
          (p.1.z (iy * 256 + 255) + p.2.z (iy * 256)) / 2 := by
  induction l with
  | nil => intro p iy _ _ hmem _; exact absurd hmem (List.not_mem_nil iy)
  | cons a tl ih =>
    intro p iy h65536 hnd hmem hiy
    rw [List.foldl_cons]
    by_cases hai : a = iy
    · subst hai
      have hnotin : a ∉ tl := (List.nodup_cons.mp hnd).1
      have hw := syncStepH_write p a h65536 hiy
      constructor
      · rw [foldH_fst_z tl (syncStepH p a) (a * 256 + 255)
            (by rw [syncStepH_fst_topVert]; exact h65536) (by omega)
            (fun iy' hiy' => by
              have : iy' ≠ a := fun h => hnotin (h ▸ hiy')
              omega),
          hw.1]
      · rw [foldH_snd_z tl (syncStepH p a) (a * 256)
            (fun iy' hiy' => by
              have : iy' ≠ a := fun h => hnotin (h ▸ hiy')
              omega),
          hw.2]
    · have hmem' : iy ∈ tl := by
        rcases List.mem_cons.mp hmem with h | h
        · exact absurd h.symm hai
        · exact h
      have := ih (syncStepH p a) iy
        (by rw [syncStepH_fst_topVert]; exact h65536)
        (List.nodup_cons.mp hnd).2 hmem' hiy
      rw [this.1, this.2] at *
      rw [syncStepH_fst_z p a (iy * 256 + 255) h65536 (by omega)
          (by omega),
        syncStepH_snd_z p a (iy * 256) (by omega)]
      exact ⟨rfl, rfl⟩

theorem foldV_fst_topVert {K : Type} [LinearOrderedField K] (l : List ℕ) :
    ∀ p : MeshGeo K × MeshGeo K,
      (l.foldl syncStepV p).1.topVerticesCount = p.1.topVerticesCount := by
  induction l with
  | nil => intro p; rfl
  | cons a tl ih =>
    intro p
    rw [List.foldl_cons, ih, syncStepV_fst_topVert]

theorem foldV_snd_topVert {K : Type} [LinearOrderedField K] (l : List ℕ) :
    ∀ p : MeshGeo K × MeshGeo K,
      (l.foldl syncStepV p).2.topVerticesCount = p.2.topVerticesCount := by
  induction l with
  | nil => intro p; rfl
  | cons a tl ih =>
    intro p
    rw [List.foldl_cons, ih, syncStepV_snd_topVert]

theorem foldV_fst_z {K : Type} [LinearOrderedField K] (l : List ℕ) :
    ∀ (p : MeshGeo K × MeshGeo K) (idx : ℕ),
      p.1.topVerticesCount = 65536 → idx < 65536 →
      (∀ ix ∈ l, idx ≠ 65280 + ix) →
      (l.foldl syncStepV p).1.z idx = p.1.z idx := by
  induction l with
  | nil => intro p idx _ _ _; rfl
  | cons a tl ih =>
    intro p idx h65536 hidx hne
    rw [List.foldl_cons,
      ih (syncStepV p a) idx (by rw [syncStepV_fst_topVert]; exact h65536)
        hidx (fun ix hix => hne ix (List.mem_cons_of_mem _ hix)),
      syncStepV_fst_z p a idx h65536 hidx (hne a (List.mem_cons_self a tl))]

theorem foldV_snd_z {K : Type} [LinearOrderedField K] (l : List ℕ) :
    ∀ (p : MeshGeo K × MeshGeo K) (idx : ℕ),
      (∀ ix ∈ l, idx ≠ ix) →
      (l.foldl syncStepV p).2.z idx = p.2.z idx := by
  induction l with
  | nil => intro p idx _; rfl
  | cons a tl ih =>
    intro p idx hne
    rw [List.foldl_cons,
      ih (syncStepV p a) idx (fun ix hix => hne ix (List.mem_cons_of_mem _
        hix)),
      syncStepV_snd_z p a idx (hne a (List.mem_cons_self a tl))]

theorem foldV_write {K : Type} [LinearOrderedField K] (l : List ℕ) :
    ∀ (p : MeshGeo K × MeshGeo K) (ix : ℕ),
      p.1.topVerticesCount = 65536 → l.Nodup → ix ∈ l → ix ≤ 255 →
      (l.foldl syncStepV p).1.z (65280 + ix) =
          (p.1.z (65280 + ix) + p.2.z ix) / 2 ∧
        (l.foldl syncStepV p).2.z ix =
          (p.1.z (65280 + ix) + p.2.z ix) / 2 := by
  induction l with
  | nil => intro p ix _ _ hmem _; exact absurd hmem (List.not_mem_nil ix)
  | cons a tl ih =>
    intro p ix h65536 hnd hmem hix
    rw [List.foldl_cons]
    by_cases hai : a = ix
    · subst hai
      have hnotin : a ∉ tl := (List.nodup_cons.mp hnd).1
      have hw := syncStepV_write p a h65536 hix
      constructor
      · rw [foldV_fst_z tl (syncStepV p a) (65280 + a)
            (by rw [syncStepV_fst_topVert]; exact h65536) (by omega)
            (fun ix' hix' => by
              have : ix' ≠ a := fun h => hnotin (h ▸ hix')
              omega),
          hw.1]
      · rw [foldV_snd_z tl (syncStepV p a) a
            (fun ix' hix' => by
              have : ix' ≠ a := fun h => hnotin (h ▸ hix')
              omega),
          hw.2]
    · have hmem' : ix ∈ tl := by
        rcases List.mem_cons.mp hmem with h | h
        · exact absurd h.symm hai
        · exact h
      have := ih (syncStepV p a) ix
        (by rw [syncStepV_fst_topVert]; exact h65536)
        (List.nodup_cons.mp hnd).2 hmem' hix
      rw [this.1, this.2] at *
      rw [syncStepV_fst_z p a (65280 + ix) h65536 (by omega) (by omega),
        syncStepV_snd_z p a ix (Ne.symm hai)]
      exact ⟨rfl, rfl⟩

theorem syncEdgesH_fst_topVert {K : Type} [LinearOrderedField K]
    (t rt : MeshGeo K) :
    (syncEdgesH t rt).1.topVerticesCount = t.topVerticesCount := by
  rw [syncEdgesH]; exact foldH_fst_topVert (List.range 256) (t, rt)

theorem syncEdgesH_snd_topVert {K : Type} [LinearOrderedField K]
    (t rt : MeshGeo K) :
    (syncEdgesH t rt).2.topVerticesCount = rt.topVerticesCount := by
  rw [syncEdgesH]; exact foldH_snd_topVert (List.range 256) (t, rt)

theorem syncEdgesH_fst_z {K : Type} [LinearOrderedField K]
    (t rt : MeshGeo K) (idx : ℕ) (h65536 : t.topVerticesCount = 65536)
    (hidx : idx < 65536) (hne : idx % 256 ≠ 255) :
    (syncEdgesH t rt).1.z idx = t.z idx := by
  rw [syncEdgesH]
  exact foldH_fst_z (List.range 256) (t, rt) idx h65536 hidx
    (fun iy _ => by omega)

theorem syncEdgesH_snd_z {K : Type} [LinearOrderedField K]
    (t rt : MeshGeo K) (idx : ℕ) (hne : idx % 256 ≠ 0) :
    (syncEdgesH t rt).2.z idx = rt.z idx := by
  rw [syncEdgesH]
  exact foldH_snd_z (List.range 256) (t, rt) idx (fun iy _ => by omega)

theorem syncEdgesH_write {K : Type} [LinearOrderedField K]
    (t rt : MeshGeo K) (iy : ℕ) (h65536 : t.topVerticesCount = 65536)
    (hiy : iy ≤ 255) :
    (syncEdgesH t rt).1.z (iy * 256 + 255) =
        (t.z (iy * 256 + 255) + rt.z (iy * 256)) / 2 ∧
      (syncEdgesH t rt).2.z (iy * 256) =
        (t.z (iy * 256 + 255) + rt.z (iy * 256)) / 2 := by
  rw [syncEdgesH]
  exact foldH_write (List.range 256) (t, rt) iy h65536 (List.nodup_range 256)
    (List.mem_range.mpr (by omega)) hiy

theorem syncEdgesV_fst_topVert {K : Type} [LinearOrderedField K]
    (t bt : MeshGeo K) :
    (syncEdgesV t bt).1.topVerticesCount = t.topVerticesCount := by
  rw [syncEdgesV]; exact foldV_fst_topVert (List.range 256) (t, bt)

theorem syncEdgesV_snd_topVert {K : Type} [LinearOrderedField K]
    (t bt : MeshGeo K) :
    (syncEdgesV t bt).2.topVerticesCount = bt.topVerticesCount := by
  rw [syncEdgesV]; exact foldV_snd_topVert (List.range 256) (t, bt)

theorem syncEdgesV_fst_z {K : Type} [LinearOrderedField K]
    (t bt : MeshGeo K) (idx : ℕ) (h65536 : t.topVerticesCount = 65536)
    (hidx : idx < 65280) :
    (syncEdgesV t bt).1.z idx = t.z idx := by
  rw [syncEdgesV]
  exact foldV_fst_z (List.range 256) (t, bt) idx h65536 (by omega)
    (fun ix _ => by omega)

theorem syncEdgesV_snd_z {K : Type} [LinearOrderedField K]
    (t bt : MeshGeo K) (idx : ℕ) (hge : 256 ≤ idx) :
    (syncEdgesV t bt).2.z idx = bt.z idx := by
  rw [syncEdgesV]
  exact foldV_snd_z (List.range 256) (t, bt) idx
    (fun ix hix => by
      have := List.mem_range.mp hix
      omega)

theorem syncEdgesV_write {K : Type} [LinearOrderedField K]
    (t bt : MeshGeo K) (ix : ℕ) (h65536 : t.topVerticesCount = 65536)
    (hix : ix ≤ 255) :
    (syncEdgesV t bt).1.z (65280 + ix) =
        (t.z (65280 + ix) + bt.z ix) / 2 ∧
      (syncEdgesV t bt).2.z ix = (t.z (65280 + ix) + bt.z ix) / 2 := by
  rw [syncEdgesV]
  exact foldV_write (List.range 256) (t, bt) ix h65536 (List.nodup_range 256)
    (List.mem_range.mpr (by omega)) hix

theorem syncRight_topVertAt {K : Type} [LinearOrderedField K] (r : ℤ)
    (m : MeshMap K) (i j a b : ℤ) :
    topVertAt (syncRight r m i j) a b = topVertAt m a b := by
  rw [syncRight]
  split
  · rcases h1 : m i j with _ | t
    · rcases h2 : m i (j + 1) with _ | rt <;> simp [h1, h2]
    · rcases h2 : m i (j + 1) with _ | rt
      · simp [h1, h2]
      · simp only [h1, h2]
        by_cases hb : a = i ∧ b = j + 1
        · obtain ⟨rfl, rfl⟩ := hb
          simp [topVertAt, updMesh, h2, syncEdgesH_snd_topVert]
        · by_cases ha : a = i ∧ b = j
          · obtain ⟨rfl, rfl⟩ := ha
            simp [topVertAt, updMesh, h1, syncEdgesH_fst_topVert,
              show ¬(a = a ∧ b = b + 1) by omega]
          · simp [topVertAt, updMesh, if_neg ha, if_neg hb]
  · rfl

theorem syncBottom_topVertAt {K : Type} [LinearOrderedField K] (r : ℤ)
    (m : MeshMap K) (i j a b : ℤ) :
    topVertAt (syncBottom r m i j) a b = topVertAt m a b := by
  rw [syncBottom]
  split
  · rcases h1 : m i j with _ | t
    · rcases h2 : m (i + 1) j with _ | bt <;> simp [h1, h2]
    · rcases h2 : m (i + 1) j with _ | bt
      · simp [h1, h2]
      · simp only [h1, h2]
        by_cases hb : a = i + 1 ∧ b = j
        · obtain ⟨rfl, rfl⟩ := hb
          simp [topVertAt, updMesh, h2, syncEdgesV_snd_topVert]
        · by_cases ha : a = i ∧ b = j
          · obtain ⟨rfl, rfl⟩ := ha
            simp [topVertAt, updMesh, h1, syncEdgesV_fst_topVert,
              show ¬(a = a + 1 ∧ b = b) by omega]
          · simp [topVertAt, updMesh, if_neg ha, if_neg hb]
  · rfl

theorem topVertAt_some_of {K : Type} {m : MeshMap K} {i j : ℤ}
    {g : MeshGeo K} (h : m i j = some g) :
    topVertAt m i j = some g.topVerticesCount := by
  rw [topVertAt, h]; rfl

theorem syncRight_z_pres {K : Type} [LinearOrderedField K] (r : ℤ)
    (m : MeshMap K) (i j a b : ℤ) (idx : ℕ)
    (hOwn : a = i ∧ b = j →
      topVertAt m i j = some 65536 ∧ idx < 65536 ∧ idx % 256 ≠ 255)
    (hR : a = i ∧ b = j + 1 → idx % 256 ≠ 0) :
    zAt (syncRight r m i j) a b idx = zAt m a b idx := by
  rw [syncRight]
  split
  · rcases h1 : m i j with _ | t
    · rcases h2 : m i (j + 1) with _ | rt <;> simp [h1, h2]
    · rcases h2 : m i (j + 1) with _ | rt
      · simp [h1, h2]
      · simp only [h1, h2]
        by_cases hb : a = i ∧ b = j + 1
        · obtain ⟨rfl, rfl⟩ := hb
          have hmod := hR ⟨rfl, rfl⟩
          simp [zAt, updMesh, h2, syncEdgesH_snd_z t rt idx hmod]
        · by_cases ha : a = i ∧ b = j
          · obtain ⟨rfl, rfl⟩ := ha
            obtain ⟨htv, hidx, hmod⟩ := hOwn ⟨rfl, rfl⟩
            rw [topVertAt_some_of h1, Option.some_inj] at htv
            simp [zAt, updMesh, h1, show ¬(a = a ∧ b = b + 1) by omega,
              syncEdgesH_fst_z t rt idx htv hidx hmod]
          · simp [zAt, updMesh, if_neg ha, if_neg hb]
  · rfl

theorem syncBottom_z_pres {K : Type} [LinearOrderedField K] (r : ℤ)
    (m : MeshMap K) (i j a b : ℤ) (idx : ℕ)
    (hOwn : a = i ∧ b = j → topVertAt m i j = some 65536 ∧ idx < 65280)
    (hB : a = i + 1 ∧ b = j → 256 ≤ idx) :
    zAt (syncBottom r m i j) a b idx = zAt m a b idx := by
  rw [syncBottom]
  split
  · rcases h1 : m i j with _ | t
    · rcases h2 : m (i + 1) j with _ | bt <;> simp [h1, h2]
    · rcases h2 : m (i + 1) j with _ | bt
      · simp [h1, h2]
      · simp only [h1, h2]
        by_cases hb : a = i + 1 ∧ b = j
        · obtain ⟨rfl, rfl⟩ := hb
          have hge := hB ⟨rfl, rfl⟩
          simp [zAt, updMesh, h2, syncEdgesV_snd_z t bt idx hge]
        · by_cases ha : a = i ∧ b = j
          · obtain ⟨rfl, rfl⟩ := ha
            obtain ⟨htv, hidx⟩ := hOwn ⟨rfl, rfl⟩
            rw [topVertAt_some_of h1, Option.some_inj] at htv
            simp [zAt, updMesh, h1, show ¬(a = a + 1 ∧ b = b) by omega,
              syncEdgesV_fst_z t bt idx htv hidx]
          · simp [zAt, updMesh, if_neg ha, if_neg hb]
  · rfl

theorem syncRight_write {K : Type} [LinearOrderedField K] (r : ℤ)
    (m : MeshMap K) (i j : ℤ) (t rt : MeshGeo K) (hj : j < r)
    (h1 : m i j = some t) (h2 : m i (j + 1) = some rt)
    (h65536 : t.topVerticesCount = 65536) (iy : ℕ) (hiy : iy ≤ 255) :
    zAt (syncRight r m i j) i j (iy * 256 + 255) =
        some ((t.z (iy * 256 + 255) + rt.z (iy * 256)) / 2) ∧
      zAt (syncRight r m i j) i (j + 1) (iy * 256) =
        some ((t.z (iy * 256 + 255) + rt.z (iy * 256)) / 2) := by
  rw [syncRight, if_pos hj]
  simp only [h1, h2]
  have hw := syncEdgesH_write t rt iy h65536 hiy
  constructor
  · simp [zAt, updMesh, show ¬(i = i ∧ j = j + 1) by omega, hw.1]
  · simp [zAt, updMesh, hw.2]

theorem syncBottom_write {K : Type} [LinearOrderedField K] (r : ℤ)
    (m : MeshMap K) (i j : ℤ) (t bt : MeshGeo K) (hi : i < r)
    (h1 : m i j = some t) (h2 : m (i + 1) j = some bt)
    (h65536 : t.topVerticesCount = 65536) (ix : ℕ) (hix : ix ≤ 255) :
    zAt (syncBottom r m i j) i j (65280 + ix) =
        some ((t.z (65280 + ix) + bt.z ix) / 2) ∧
      zAt (syncBottom r m i j) (i + 1) j ix =
        some ((t.z (65280 + ix) + bt.z ix) / 2) := by
  rw [syncBottom, if_pos hi]
  simp only [h1, h2]
  have hw := syncEdgesV_write t bt ix h65536 hix
  constructor
  · simp [zAt, updMesh, show ¬(i = i + 1 ∧ j = j) by omega, hw.1]
  · simp [zAt, updMesh, hw.2]

theorem topVertAt_inv {K : Type} {m : MeshMap K} {i j : ℤ} {n : ℕ}
    (h : topVertAt m i j = some n) :
    ∃ g, m i j = some g ∧ g.topVerticesCount = n := by
  rcases hm : m i j with _ | g
  · rw [topVertAt, hm] at h
    exact absurd h (by simp)
  · rw [topVertAt, hm] at h
    exact ⟨g, rfl, by simpa using h⟩

theorem zAt_of_mem {K : Type} {m : MeshMap K} {i j : ℤ} {g : MeshGeo K}
    (h : m i j = some g) (idx : ℕ) : zAt m i j idx = some (g.z idx) := by
  rw [zAt, h]; rfl

theorem syncTile_topVertAt {K : Type} [LinearOrderedField K] (r : ℤ)
    (m : MeshMap K) (op : ℤ × ℤ) (a b : ℤ) :
    topVertAt (syncTileMeshes r m op) a b = topVertAt m a b := by
  rw [syncTileMeshes]
  rcases h : m op.1 op.2 with _ | g
  · simp only [h]
  · simp only [h]
    rw [syncBottom_topVertAt, syncRight_topVertAt]

theorem syncTile_z_pres {K : Type} [LinearOrderedField K] (r : ℤ)
    (m : MeshMap K) (op : ℤ × ℤ) (a b : ℤ) (idx : ℕ)
    (hOwn : op = (a, b) →
      topVertAt m a b = some 65536 ∧ idx < 65280 ∧ idx % 256 ≠ 255)
    (hRight : op = (a, b - 1) → idx % 256 ≠ 0)
    (hBelow : op = (a - 1, b) → 256 ≤ idx) :
    zAt (syncTileMeshes r m op) a b idx = zAt m a b idx := by
  rw [syncTileMeshes]
  rcases h : m op.1 op.2 with _ | g
  · simp only [h]
  · simp only [h]
    have hstep :
        zAt (syncBottom r (syncRight r m op.1 op.2) op.1 op.2) a b idx =
          zAt (syncRight r m op.1 op.2) a b idx := by
      apply syncBottom_z_pres
      · intro hab
        have hop : op = (a, b) := by rw [hab.1, hab.2]
        obtain ⟨htv, hlt, _⟩ := hOwn hop
        refine ⟨?_, hlt⟩
        rw [syncRight_topVertAt, ← hab.1, ← hab.2]
        exact htv
      · intro hab
        have h1 : a - 1 = op.1 := by omega
        exact hBelow (by rw [h1, hab.2])
    rw [hstep]
    apply syncRight_z_pres
    · intro hab
      have hop : op = (a, b) := by rw [hab.1, hab.2]
      obtain ⟨htv, hlt, hmod⟩ := hOwn hop
      exact ⟨by rw [← hab.1, ← hab.2]; exact htv, by omega, hmod⟩
    · intro hab
      have h1 : b - 1 = op.2 := by omega
      exact hRight (by rw [hab.1, h1])

theorem syncTile_write_H {K : Type} [LinearOrderedField K] (r : ℤ)
    (m : MeshMap K) (i j : ℤ) (t rt : MeshGeo K) (hj : j < r)
    (h1 : m i j = some t) (h2 : m i (j + 1) = some rt)
    (ht : t.topVerticesCount = 65536) (iy : ℕ) (hiy : iy ≤ 254) :
    zAt (syncTileMeshes r m (i, j)) i j (iy * 256 + 255) =
        some ((t.z (iy * 256 + 255) + rt.z (iy * 256)) / 2) ∧
      zAt (syncTileMeshes r m (i, j)) i (j + 1) (iy * 256) =
        some ((t.z (iy * 256 + 255) + rt.z (iy * 256)) / 2) := by
  have key : syncTileMeshes r m (i, j) =
      syncBottom r (syncRight r m i j) i j := by
    rw [syncTileMeshes]
    simp only [h1]
  rw [key]
  have htv : topVertAt (syncRight r m i j) i j = some 65536 := by
    rw [syncRight_topVertAt, topVertAt_some_of h1, ht]
  have hw := syncRight_write r m i j t rt hj h1 h2 ht iy (by omega)
  constructor
  · have hpres :
        zAt (syncBottom r (syncRight r m i j) i j) i j (iy * 256 + 255) =
          zAt (syncRight r m i j) i j (iy * 256 + 255) := by
      apply syncBottom_z_pres
      · intro _
        exact ⟨htv, by omega⟩
      · intro hab
        exact absurd hab.1 (by omega)
    rw [hpres, hw.1]
  · have hpres :
        zAt (syncBottom r (syncRight r m i j) i j) i (j + 1) (iy * 256) =
          zAt (syncRight r m i j) i (j + 1) (iy * 256) := by
      apply syncBottom_z_pres
      · intro hab
        exact absurd hab.2 (by omega)
      · intro hab
        exact absurd hab.1 (by omega)
    rw [hpres, hw.2]

theorem syncTile_write_V {K : Type} [LinearOrderedField K] (r : ℤ)
    (m : MeshMap K) (i j : ℤ) (t bt : MeshGeo K) (hi : i < r)
    (h1 : m i j = some t) (h2 : m (i + 1) j = some bt)
    (ht : t.topVerticesCount = 65536) (ix : ℕ) (hix : ix ≤ 254) :
    zAt (syncTileMeshes r m (i, j)) i j (65280 + ix) =
        some ((t.z (65280 + ix) + bt.z ix) / 2) ∧
      zAt (syncTileMeshes r m (i, j)) (i + 1) j ix =
        some ((t.z (65280 + ix) + bt.z ix) / 2) := by
  have key : syncTileMeshes r m (i, j) =
      syncBottom r (syncRight r m i j) i j := by
    rw [syncTileMeshes]
    simp only [h1]
  rw [key]
  have htv : topVertAt (syncRight r m i j) i j = some 65536 := by
    rw [syncRight_topVertAt, topVertAt_some_of h1, ht]
  obtain ⟨t2, ht2m, ht2v⟩ := topVertAt_inv htv
  have hbtv : topVertAt (syncRight r m i j) (i + 1) j =
      some bt.topVerticesCount := by
    rw [syncRight_topVertAt, topVertAt_some_of h2]
  obtain ⟨bt2, hbt2m, hbt2v⟩ := topVertAt_inv hbtv
  have ht2z : t2.z (65280 + ix) = t.z (65280 + ix) := by
    have hp : zAt (syncRight r m i j) i j (65280 + ix) =
        zAt m i j (65280 + ix) := by
      apply syncRight_z_pres
      · intro _
        exact ⟨topVertAt_some_of h1 ▸ ht ▸ rfl, by omega, by omega⟩
      · intro hab
        exact absurd hab.2 (by omega)
    rw [zAt_of_mem ht2m, zAt_of_mem h1] at hp
    exact Option.some_injective K hp
  have hbt2z : bt2.z ix = bt.z ix := by
    have hp : zAt (syncRight r m i j) (i + 1) j ix = zAt m (i + 1) j ix := by
      apply syncRight_z_pres
      · intro hab
        exact absurd hab.1 (by omega)
      · intro hab
        exact absurd hab.1 (by omega)
    rw [zAt_of_mem hbt2m, zAt_of_mem h2] at hp
    exact Option.some_injective K hp
  have hw := syncBottom_write r (syncRight r m i j) i j t2 bt2 hi ht2m hbt2m
    ht2v ix (by omega)
  rw [ht2z, hbt2z] at hw
  exact hw

theorem foldSync_topVert {K : Type} [LinearOrderedField K] (r : ℤ)
    (l : List (ℤ × ℤ)) :
    ∀ (m : MeshMap K) (a b : ℤ),
      topVertAt (l.foldl (syncTileMeshes r) m) a b = topVertAt m a b := by
  induction l with
  | nil => intro m a b; rfl
  | cons op tl ih =>
    intro m a b
    rw [List.foldl_cons, ih, syncTile_topVertAt]

theorem foldSync_z_pres {K : Type} [LinearOrderedField K] (r : ℤ)
    (l : List (ℤ × ℤ)) :
    ∀ (m : MeshMap K) (a b : ℤ) (idx : ℕ),
      ((a, b) ∈ l →
        topVertAt m a b = some 65536 ∧ idx < 65280 ∧ idx % 256 ≠ 255) →
      ((a, b - 1) ∈ l → idx % 256 ≠ 0) →
      ((a - 1, b) ∈ l → 256 ≤ idx) →
      zAt (l.foldl (syncTileMeshes r) m) a b idx = zAt m a b idx := by
  induction l with
  | nil => intro m a b idx _ _ _; rfl
  | cons op tl ih =>
    intro m a b idx hOwn hRight hBelow
    have hstep := syncTile_z_pres r m op a b idx
      (fun hop => hOwn (List.mem_cons.mpr (Or.inl hop.symm)))
      (fun hop => hRight (List.mem_cons.mpr (Or.inl hop.symm)))
      (fun hop => hBelow (List.mem_cons.mpr (Or.inl hop.symm)))
    have htail := ih (syncTileMeshes r m op) a b idx
      (fun hmem => by
        obtain ⟨htv, h2, h3⟩ := hOwn (List.mem_cons_of_mem op hmem)
        exact ⟨by rw [syncTile_topVertAt]; exact htv, h2, h3⟩)
      (fun hmem => hRight (List.mem_cons_of_mem op hmem))
      (fun hmem => hBelow (List.mem_cons_of_mem op hmem))
    rw [List.foldl_cons, htail, hstep]

theorem mem_gridRange {r x : ℤ} : x ∈ gridRange r ↔ -r ≤ x ∧ x ≤ r := by
  simp only [gridRange, List.mem_map, List.mem_range]
  constructor
  · rintro ⟨a, ha, rfl⟩
    omega
  · intro hx
    exact ⟨(x + r).toNat, by omega, by omega⟩

theorem nodup_gridRange (r : ℤ) : (gridRange r).Nodup := by
  refine List.Nodup.map ?_ (List.nodup_range _)
  intro a b hab
  have h2 : -r + (a : ℤ) = -r + (b : ℤ) := hab
  omega

theorem mem_gridCoords {r : ℤ} {p : ℤ × ℤ} :
    p ∈ gridCoords r ↔ -r ≤ p.1 ∧ p.1 ≤ r ∧ -r ≤ p.2 ∧ p.2 ≤ r := by
  simp only [gridCoords, List.mem_flatMap, List.mem_map]
  constructor
  · rintro ⟨i, hi, j, hj, rfl⟩
    rw [mem_gridRange] at hi
    rw [mem_gridRange] at hj
    exact ⟨hi.1, hi.2, hj.1, hj.2⟩
  · intro hp
    exact ⟨p.1, mem_gridRange.mpr ⟨hp.1, hp.2.1⟩, p.2,
      mem_gridRange.mpr ⟨hp.2.2.1, hp.2.2.2⟩, rfl⟩

theorem nodup_gridCoords (r : ℤ) : (gridCoords r).Nodup := by
  rw [gridCoords, List.nodup_flatMap]
  constructor
  · intro i _
    refine List.Nodup.map ?_ (nodup_gridRange r)
    intro a b hab
    simpa using hab
  · refine List.Pairwise.imp ?_ (nodup_gridRange r)
    intro i j hne p hp hp'
    simp only [List.mem_map] at hp hp'
    obtain ⟨a, _, rfl⟩ := hp
    obtain ⟨a', _, he⟩ := hp'
    simp only [Prod.mk.injEq] at he
    exact hne he.1.symm

/-- C1 (amended).  After `synchronizeTileBoundaries` runs over a fully
installed grid, for every pair of horizontally or vertically adjacent
tiles, each **interior** shared-edge sample pair (row/column positions
`1 .. 254`, excluding the two shared corner samples `0` and `255`) holds on
both tiles the arithmetic mean of the two pre-stitch values: the stored
right-edge heights of the left tile equal the stored left-edge heights of
the right tile element-wise and equal the pre-stitch average of the two,
and likewise for the bottom/top edges of vertically adjacent tiles.  (At
the two shared corner samples of an edge the claim fails: a corner vertex
is shared by up to four tiles but the passes only average pairs, and a
later vertical pass overwrites the result of an earlier horizontal one, so
the two stored corner values can disagree — see the counterexample.) -/
theorem C1_stitch_interior_amended {K : Type} [LinearOrderedField K]
    (r : ℤ) (s : EngineState K) (ti tj : ℤ) (k : ℕ)
    (hti1 : -r ≤ ti) (hti2 : ti ≤ r) (htj1 : -r ≤ tj) (htj2 : tj ≤ r)
    (hk1 : 1 ≤ k) (hk2 : k ≤ 254) :
    (∀ t rt : MeshGeo K, tj < r → s.meshes ti tj = some t →
      s.meshes ti (tj + 1) = some rt → t.topVerticesCount = 65536 →
      rt.topVerticesCount = 65536 →
      zAt (synchronizeTileBoundaries r s).meshes ti tj (k * 256 + 255) =
          some ((t.z (k * 256 + 255) + rt.z (k * 256)) / 2) ∧
        zAt (synchronizeTileBoundaries r s).meshes ti (tj + 1) (k * 256) =
          some ((t.z (k * 256 + 255) + rt.z (k * 256)) / 2)) ∧
    (∀ t bt : MeshGeo K, ti < r → s.meshes ti tj = some t →
      s.meshes (ti + 1) tj = some bt → t.topVerticesCount = 65536 →
      bt.topVerticesCount = 65536 →
      zAt (synchronizeTileBoundaries r s).meshes ti tj (65280 + k) =
          some ((t.z (65280 + k) + bt.z k) / 2) ∧
        zAt (synchronizeTileBoundaries r s).meshes (ti + 1) tj k =
          some ((t.z (65280 + k) + bt.z k) / 2)) := by
  have hmesh : (synchronizeTileBoundaries r s).meshes =
      (gridCoords r).foldl (syncTileMeshes r) s.meshes := rfl
  have hmem : (ti, tj) ∈ gridCoords r :=
    mem_gridCoords.mpr ⟨hti1, hti2, htj1, htj2⟩
  obtain ⟨L1, L2, hsplit⟩ := List.append_of_mem hmem
  have hnodup := nodup_gridCoords r
  rw [hsplit, List.nodup_append] at hnodup
  obtain ⟨hnd1, hnd2, hdisj⟩ := hnodup
  have hnotin1 : (ti, tj) ∉ L1 := fun h =>
    hdisj h (List.mem_cons_self _ _)
  have hnotin2 : (ti, tj) ∉ L2 := (List.nodup_cons.mp hnd2).1
  have hfold : ∀ a b idx,
      zAt ((gridCoords r).foldl (syncTileMeshes r) s.meshes) a b idx =
        zAt (L2.foldl (syncTileMeshes r)
          (syncTileMeshes r (L1.foldl (syncTileMeshes r) s.meshes)
            (ti, tj))) a b idx := by
    intro a b idx
    rw [hsplit, List.foldl_append, List.foldl_cons]
  constructor
  · intro t rt hjr h1 h2 ht hrt
    have htv1 : topVertAt (L1.foldl (syncTileMeshes r) s.meshes) ti tj =
        some 65536 := by
      rw [foldSync_topVert, topVertAt_some_of h1, ht]
    obtain ⟨t1, ht1m, ht1v⟩ := topVertAt_inv htv1
    have hrtv1 : topVertAt (L1.foldl (syncTileMeshes r) s.meshes) ti
        (tj + 1) = some 65536 := by
      rw [foldSync_topVert, topVertAt_some_of h2, hrt]
    obtain ⟨rt1, hrt1m, hrt1v⟩ := topVertAt_inv hrtv1
    have hwrite := syncTile_write_H r (L1.foldl (syncTileMeshes r) s.meshes)
      ti tj t1 rt1 hjr ht1m hrt1m ht1v k hk2
    have hApres : zAt (L1.foldl (syncTileMeshes r) s.meshes) ti tj
        (k * 256 + 255) = zAt s.meshes ti tj (k * 256 + 255) :=
      foldSync_z_pres r L1 s.meshes ti tj (k * 256 + 255)
        (fun hmem1 => absurd hmem1 hnotin1)
        (fun _ => by omega)
        (fun _ => by omega)
    have ht1z : t1.z (k * 256 + 255) = t.z (k * 256 + 255) := by
      rw [zAt_of_mem ht1m, zAt_of_mem h1] at hApres
      exact Option.some_injective K hApres
    have hBpres : zAt (L1.foldl (syncTileMeshes r) s.meshes) ti (tj + 1)
        (k * 256) = zAt s.meshes ti (tj + 1) (k * 256) :=
      foldSync_z_pres r L1 s.meshes ti (tj + 1) (k * 256)
        (fun _ => ⟨by rw [topVertAt_some_of h2, hrt], by omega, by omega⟩)
        (fun hmem1 => absurd (by
          rw [show tj + 1 - 1 = tj by ring] at hmem1
          exact hmem1) hnotin1)
        (fun _ => by omega)
    have hrt1z : rt1.z (k * 256) = rt.z (k * 256) := by
      rw [zAt_of_mem hrt1m, zAt_of_mem h2] at hBpres
      exact Option.some_injective K hBpres
    constructor
    · rw [hmesh, hfold]
      rw [foldSync_z_pres r L2 _ ti tj (k * 256 + 255)
        (fun hmem2 => absurd hmem2 hnotin2)
        (fun _ => by omega)
        (fun _ => by omega)]
      rw [hwrite.1, ht1z, hrt1z]
    · rw [hmesh, hfold]
      rw [foldSync_z_pres r L2 _ ti (tj + 1) (k * 256)
        (fun _ => ⟨by
          rw [syncTile_topVertAt, foldSync_topVert, topVertAt_some_of h2,
            hrt], by omega, by omega⟩)
        (fun hmem2 => absurd (by
          rw [show tj + 1 - 1 = tj by ring] at hmem2
          exact hmem2) hnotin2)
        (fun _ => by omega)]
      rw [hwrite.2, ht1z, hrt1z]
  · intro t bt hir h1 h2 ht hbt
    have htv1 : topVertAt (L1.foldl (syncTileMeshes r) s.meshes) ti tj =
        some 65536 := by
      rw [foldSync_topVert, topVertAt_some_of h1, ht]
    obtain ⟨t1, ht1m, ht1v⟩ := topVertAt_inv htv1
    have hbtv1 : topVertAt (L1.foldl (syncTileMeshes r) s.meshes) (ti + 1)
        tj = some 65536 := by
      rw [foldSync_topVert, topVertAt_some_of h2, hbt]
    obtain ⟨bt1, hbt1m, hbt1v⟩ := topVertAt_inv hbtv1
    have hwrite := syncTile_write_V r (L1.foldl (syncTileMeshes r) s.meshes)
      ti tj t1 bt1 hir ht1m hbt1m ht1v k hk2
    have hApres : zAt (L1.foldl (syncTileMeshes r) s.meshes) ti tj
        (65280 + k) = zAt s.meshes ti tj (65280 + k) :=
      foldSync_z_pres r L1 s.meshes ti tj (65280 + k)
        (fun hmem1 => absurd hmem1 hnotin1)
        (fun _ => by omega)
        (fun _ => by omega)
    have ht1z : t1.z (65280 + k) = t.z (65280 + k) := by
      rw [zAt_of_mem ht1m, zAt_of_mem h1] at hApres
      exact Option.some_injective K hApres
    have hBpres : zAt (L1.foldl (syncTileMeshes r) s.meshes) (ti + 1) tj k =
        zAt s.meshes (ti + 1) tj k :=
      foldSync_z_pres r L1 s.meshes (ti + 1) tj k
        (fun _ => ⟨by rw [topVertAt_some_of h2, hbt], by omega, by omega⟩)
        (fun _ => by omega)
        (fun hmem1 => absurd (by
          rw [show ti + 1 - 1 = ti by ring] at hmem1
          exact hmem1) hnotin1)
    have hbt1z : bt1.z k = bt.z k := by
      rw [zAt_of_mem hbt1m, zAt_of_mem h2] at hBpres
      exact Option.some_injective K hBpres
    constructor
    · rw [hmesh, hfold]
      rw [foldSync_z_pres r L2 _ ti tj (65280 + k)
        (fun hmem2 => absurd hmem2 hnotin2)
        (fun _ => by omega)
        (fun _ => by omega)]
      rw [hwrite.1, ht1z, hbt1z]
    · rw [hmesh, hfold]
      rw [foldSync_z_pres r L2 _ (ti + 1) tj k
        (fun _ => ⟨by
          rw [syncTile_topVertAt, foldSync_topVert, topVertAt_some_of h2,
            hbt], by omega, by omega⟩)
        (fun _ => by omega)
        (fun hmem2 => absurd (by
          rw [show ti + 1 - 1 = ti by ring] at hmem2
          exact hmem2) hnotin2)]
      rw [hwrite.2, ht1z, hbt1z]

/-- A fully installed radius-2 grid of 65536-vertex tile meshes, all flat at
height `0` except the tile at grid coordinate `(1, 1)`, whose vertex `0`
(its top-left corner, coincident with the bottom-right corner of tile
`(0, 0)`, the bottom-left corner of `(0, 1)` and the top-right corner of
`(1, 0)`) stores height `4`. -/
def cexG0 : MeshGeo ℚ :=
  { z := fun _ => 0, topVerticesCount := 65536,
    edgeToSkirtMap := fun _ => none, skirtDepth := 1 }

def cexGD : MeshGeo ℚ :=
  { z := fun n => if n = 0 then 4 else 0, topVerticesCount := 65536,
    edgeToSkirtMap := fun _ => none, skirtDepth := 1 }

def cexMeshes : ℤ → ℤ → Option (MeshGeo ℚ) := fun i j =>
  if i = 1 ∧ j = 1 then some cexGD
  else if -2 ≤ i ∧ i ≤ 2 ∧ -2 ≤ j ∧ j ≤ 2 then some cexG0
  else none

def cexState : EngineState ℚ :=
  { meshes := cexMeshes, heightData := [], gridPosX := 0, gridPosZ := 0,
    mapZoom := 12, renderMisc := 0 }

/-- The loop iterations strictly before tile `(0, 0)` in the row-major
order of `synchronizeTileBoundaries` at grid radius 2. -/
def cexLA : List (ℤ × ℤ) :=
  [(-2, -2), (-2, -1), (-2, 0), (-2, 1), (-2, 2),
   (-1, -2), (-1, -1), (-1, 0), (-1, 1), (-1, 2),
   (0, -2), (0, -1)]

/-- The loop iterations strictly after tile `(0, 1)`. -/
def cexLB : List (ℤ × ℤ) :=
  [(0, 2),
   (1, -2), (1, -1), (1, 0), (1, 1), (1, 2),
   (2, -2), (2, -1), (2, 0), (2, 1), (2, 2)]

/-- C1 (counterexample to the original claim).  In the fully installed
radius-2 grid `cexState`, the shared corner sample of the edge between the
horizontally adjacent tiles `(0, 0)` and `(0, 1)` ends the stitching pass
holding **different** values on the two tiles — `0` on tile `(0, 0)`
(vertex `255 * 256 + 255 = 65535`) but `2` on tile `(0, 1)` (vertex
`255 * 256 = 65280`) — even though both pre-stitch values are `0` (so their
average is `0`): the later bottom-edge pass of tile `(0, 1)` re-averages
the right tile's corner against tile `(1, 1)`'s height `4` and overwrites
the earlier result on one side only.  This refutes the claimed element-wise
equality (and equality to the pre-stitch average) for shared-edge sample
pairs at edge corners. -/
theorem C1_stitch_counterexample :
    zAt cexState.meshes 0 0 65535 = some 0 ∧
      zAt cexState.meshes 0 1 65280 = some 0 ∧
      zAt (synchronizeTileBoundaries 2 cexState).meshes 0 0 65535 =
        some 0 ∧
      zAt (synchronizeTileBoundaries 2 cexState).meshes 0 1 65280 =
        some 2 ∧
      zAt (synchronizeTileBoundaries 2 cexState).meshes 0 0 65535 ≠
        zAt (synchronizeTileBoundaries 2 cexState).meshes 0 1 65280 := by
  have hsplit : gridCoords 2 =
      cexLA ++ ((0 : ℤ), (0 : ℤ)) :: ((0 : ℤ), (1 : ℤ)) :: cexLB := by
    decide
  have hmesh : (synchronizeTileBoundaries 2 cexState).meshes =
      (gridCoords 2).foldl (syncTileMeshes 2) cexMeshes := rfl
  have hM1tv00 :
      topVertAt (cexLA.foldl (syncTileMeshes 2) cexMeshes) 0 0 =
        some 65536 := by
    rw [foldSync_topVert]; rfl
  obtain ⟨t1, ht1m, ht1v⟩ := topVertAt_inv hM1tv00
  have hM1tv01 :
      topVertAt (cexLA.foldl (syncTileMeshes 2) cexMeshes) 0 1 =
        some 65536 := by
    rw [foldSync_topVert]; rfl
  obtain ⟨rt1, hrt1m, hrt1v⟩ := topVertAt_inv hM1tv01
  have hM1tv10 :
      topVertAt (cexLA.foldl (syncTileMeshes 2) cexMeshes) 1 0 =
        some 65536 := by
    rw [foldSync_topVert]; rfl
  have pa : zAt (cexLA.foldl (syncTileMeshes 2) cexMeshes) 0 0 65535 =
      some 0 := by
    rw [foldSync_z_pres 2 cexLA cexMeshes 0 0 65535
      (fun h => absurd h (by decide)) (fun _ => by decide)
      (fun _ => by decide)]
    rfl
  have pb : zAt (cexLA.foldl (syncTileMeshes 2) cexMeshes) 0 1 65280 =
      some 0 := by
    rw [foldSync_z_pres 2 cexLA cexMeshes 0 1 65280
      (fun h => absurd h (by decide)) (fun h => absurd h (by decide))
      (fun _ => by decide)]
    rfl
  have pc : zAt (cexLA.foldl (syncTileMeshes 2) cexMeshes) 1 0 255 =
      some 0 := by
    rw [foldSync_z_pres 2 cexLA cexMeshes 1 0 255
      (fun h => absurd h (by decide)) (fun h => absurd h (by decide))
      (fun h => absurd h (by decide))]
    rfl
  have pd : zAt (cexLA.foldl (syncTileMeshes 2) cexMeshes) 1 1 0 =
      some 4 := by
    rw [foldSync_z_pres 2 cexLA cexMeshes 1 1 0
      (fun h => absurd h (by decide)) (fun h => absurd h (by decide))
      (fun h => absurd h (by decide))]
    rfl
  have ht1z : t1.z 65535 = 0 := by
    have h := pa
    rw [zAt_of_mem ht1m] at h
    exact Option.some_injective ℚ h
  have hrt1z : rt1.z 65280 = 0 := by
    have h := pb
    rw [zAt_of_mem hrt1m] at h
    exact Option.some_injective ℚ h
  have hw1 := syncRight_write 2 (cexLA.foldl (syncTileMeshes 2) cexMeshes)
    0 0 t1 rt1 (by decide) ht1m (by rw [zero_add]; exact hrt1m) ht1v 255
    (by decide)
  norm_num at hw1
  rw [ht1z, hrt1z] at hw1
  norm_num at hw1
  have q10 :
      zAt (syncRight 2 (cexLA.foldl (syncTileMeshes 2) cexMeshes) 0 0)
        1 0 255 =
      zAt (cexLA.foldl (syncTileMeshes 2) cexMeshes) 1 0 255 :=
    syncRight_z_pres 2 _ 0 0 1 0 255
      (fun hab => absurd hab.1 (by decide))
      (fun hab => absurd hab.1 (by decide))
  have q11 :
      zAt (syncRight 2 (cexLA.foldl (syncTileMeshes 2) cexMeshes) 0 0)
        1 1 0 =
      zAt (cexLA.foldl (syncTileMeshes 2) cexMeshes) 1 1 0 :=
    syncRight_z_pres 2 _ 0 0 1 1 0
      (fun hab => absurd hab.1 (by decide))
      (fun hab => absurd hab.1 (by decide))
  have htv2 :
      topVertAt (syncRight 2 (cexLA.foldl (syncTileMeshes 2) cexMeshes)
        0 0) 0 0 = some 65536 := by
    rw [syncRight_topVertAt]; exact hM1tv00
  obtain ⟨t2, ht2m, ht2v⟩ := topVertAt_inv htv2
  have htv2b :
      topVertAt (syncRight 2 (cexLA.foldl (syncTileMeshes 2) cexMeshes)
        0 0) 1 0 = some 65536 := by
    rw [syncRight_topVertAt]; exact hM1tv10
  obtain ⟨bt2, hbt2m, hbt2v⟩ := topVertAt_inv htv2b
  have ht2z : t2.z 65535 = 0 := by
    have h := hw1.1
    rw [zAt_of_mem ht2m] at h
    exact Option.some_injective ℚ h
  have hbt2z : bt2.z 255 = 0 := by
    have h := q10
    rw [zAt_of_mem hbt2m, pc] at h
    exact Option.some_injective ℚ h
  have hw2 := syncBottom_write 2
    (syncRight 2 (cexLA.foldl (syncTileMeshes 2) cexMeshes) 0 0)
    0 0 t2 bt2 (by decide) ht2m (by rw [zero_add]; exact hbt2m) ht2v 255
    (by decide)
  norm_num at hw2
  rw [ht2z, hbt2z] at hw2
  norm_num at hw2
  have qB :
      zAt (syncBottom 2
        (syncRight 2 (cexLA.foldl (syncTileMeshes 2) cexMeshes) 0 0) 0 0)
        0 1 65280 =
      zAt (syncRight 2 (cexLA.foldl (syncTileMeshes 2) cexMeshes) 0 0)
        0 1 65280 :=
    syncBottom_z_pres 2 _ 0 0 0 1 65280
      (fun hab => absurd hab.2 (by decide))
      (fun hab => absurd hab.1 (by decide))
  have qD :
      zAt (syncBottom 2
        (syncRight 2 (cexLA.foldl (syncTileMeshes 2) cexMeshes) 0 0) 0 0)
        1 1 0 =
      zAt (syncRight 2 (cexLA.foldl (syncTileMeshes 2) cexMeshes) 0 0)
        1 1 0 :=
    syncBottom_z_pres 2 _ 0 0 1 1 0
      (fun hab => absurd hab.2 (by decide))
      (fun hab => absurd hab.2 (by decide))
  have hBm2 :
      zAt (syncBottom 2
        (syncRight 2 (cexLA.foldl (syncTileMeshes 2) cexMeshes) 0 0) 0 0)
        0 1 65280 = some 0 := by
    rw [qB]; exact hw1.2
  have hDm2 :
      zAt (syncBottom 2
        (syncRight 2 (cexLA.foldl (syncTileMeshes 2) cexMeshes) 0 0) 0 0)
        1 1 0 = some 4 := by
    rw [qD, q11, pd]
  have htv3 :
      topVertAt (syncBottom 2
        (syncRight 2 (cexLA.foldl (syncTileMeshes 2) cexMeshes) 0 0) 0 0)
        0 1 = some 65536 := by
    rw [syncBottom_topVertAt, syncRight_topVertAt]; exact hM1tv01
  obtain ⟨rt3, hrt3m, hrt3v⟩ := topVertAt_inv htv3
  have htv3d :
      topVertAt (syncBottom 2
        (syncRight 2 (cexLA.foldl (syncTileMeshes 2) cexMeshes) 0 0) 0 0)
        1 1 = some 65536 := by
    rw [syncBottom_topVertAt, syncRight_topVertAt, foldSync_topVert]; rfl
  obtain ⟨d3, hd3m, hd3v⟩ := topVertAt_inv htv3d
  have qB2 :
      zAt (syncRight 2 (syncBottom 2
        (syncRight 2 (cexLA.foldl (syncTileMeshes 2) cexMeshes) 0 0) 0 0)
        0 1) 0 1 65280 =
      zAt (syncBottom 2
        (syncRight 2 (cexLA.foldl (syncTileMeshes 2) cexMeshes) 0 0) 0 0)
        0 1 65280 :=
    syncRight_z_pres 2 _ 0 1 0 1 65280
      (fun _ => ⟨htv3, by decide, by decide⟩)
      (fun hab => absurd hab.2 (by decide))
  have qD2 :
      zAt (syncRight 2 (syncBottom 2
        (syncRight 2 (cexLA.foldl (syncTileMeshes 2) cexMeshes) 0 0) 0 0)
        0 1) 1 1 0 =
      zAt (syncBottom 2
        (syncRight 2 (cexLA.foldl (syncTileMeshes 2) cexMeshes) 0 0) 0 0)
        1 1 0 :=
    syncRight_z_pres 2 _ 0 1 1 1 0
      (fun hab => absurd hab.1 (by decide))
      (fun hab => absurd hab.1 (by decide))
  have htv4 :
      topVertAt (syncRight 2 (syncBottom 2
        (syncRight 2 (cexLA.foldl (syncTileMeshes 2) cexMeshes) 0 0) 0 0)
        0 1) 0 1 = some 65536 := by
    rw [syncRight_topVertAt]; exact htv3
  obtain ⟨rt4, hrt4m, hrt4v⟩ := topVertAt_inv htv4
  have htv4d :
      topVertAt (syncRight 2 (syncBottom 2
        (syncRight 2 (cexLA.foldl (syncTileMeshes 2) cexMeshes) 0 0) 0 0)
        0 1) 1 1 = some 65536 := by
    rw [syncRight_topVertAt]; exact htv3d
  obtain ⟨d4, hd4m, hd4v⟩ := topVertAt_inv htv4d
  have hrt4z : rt4.z 65280 = 0 := by
    have h := qB2
    rw [zAt_of_mem hrt4m, hBm2] at h
    exact Option.some_injective ℚ h
  have hd4z : d4.z 0 = 4 := by
    have h := qD2
    rw [zAt_of_mem hd4m, hDm2] at h
    exact Option.some_injective ℚ h
  have hw3 := syncBottom_write 2 (syncRight 2 (syncBottom 2
      (syncRight 2 (cexLA.foldl (syncTileMeshes 2) cexMeshes) 0 0) 0 0)
      0 1) 0 1 rt4 d4 (by decide) hrt4m (by rw [zero_add]; exact hd4m)
    hrt4v 0 (by decide)
  norm_num at hw3
  rw [hrt4z, hd4z] at hw3
  norm_num at hw3
  have key0 : syncTileMeshes 2 (cexLA.foldl (syncTileMeshes 2) cexMeshes)
      ((0 : ℤ), (0 : ℤ)) =
      syncBottom 2
        (syncRight 2 (cexLA.foldl (syncTileMeshes 2) cexMeshes) 0 0)
        0 0 := by
    rw [syncTileMeshes]
    simp only [ht1m]
  have key1 : syncTileMeshes 2 (syncBottom 2
      (syncRight 2 (cexLA.foldl (syncTileMeshes 2) cexMeshes) 0 0) 0 0)
      ((0 : ℤ), (1 : ℤ)) =
      syncBottom 2 (syncRight 2 (syncBottom 2
        (syncRight 2 (cexLA.foldl (syncTileMeshes 2) cexMeshes) 0 0) 0 0)
        0 1) 0 1 := by
    rw [syncTileMeshes]
    simp only [hrt3m]
  have hAfin :
      zAt (synchronizeTileBoundaries 2 cexState).meshes 0 0 65535 =
        some 0 := by
    rw [hmesh, hsplit, List.foldl_append, List.foldl_cons,
      List.foldl_cons]
    rw [foldSync_z_pres 2 cexLB _ 0 0 65535
      (fun h => absurd h (by decide)) (fun _ => by decide)
      (fun _ => by decide)]
    rw [key0]
    rw [syncTile_z_pres 2 _ ((0 : ℤ), (1 : ℤ)) 0 0 65535
      (fun hop => absurd hop (by decide)) (fun _ => by decide)
      (fun _ => by decide)]
    exact hw2.1
  have hBfin :
      zAt (synchronizeTileBoundaries 2 cexState).meshes 0 1 65280 =
        some 2 := by
    rw [hmesh, hsplit, List.foldl_append, List.foldl_cons,
      List.foldl_cons]
    rw [foldSync_z_pres 2 cexLB _ 0 1 65280
      (fun h => absurd h (by decide)) (fun h => absurd h (by decide))
      (fun _ => by decide)]
    rw [key0, key1]
    exact hw3.1
  refine ⟨rfl, rfl, hAfin, hBfin, ?_⟩
  rw [hAfin, hBfin]
  intro h
  exact absurd (Option.some_injective ℚ h) (by norm_num)

theorem C1_stitch_interior_amended_witness :
    zAt (synchronizeTileBoundaries 2 cexState).meshes 0 0 25855 =
        some ((cexG0.z 25855 + cexG0.z 25600) / 2) ∧
      zAt (synchronizeTileBoundaries 2 cexState).meshes 0 1 25600 =
        some ((cexG0.z 25855 + cexG0.z 25600) / 2) :=
  (C1_stitch_interior_amended 2 cexState 0 0 100 (by decide) (by decide)
      (by decide) (by decide) (by decide) (by decide)).1 cexG0 cexG0
    (by decide) rfl rfl rfl rfl

end PeakyLight
